import Mathlib

/-!
# Verification of the crossword-robot turn pipeline

Shallow embedding of the repository's Python sources:

* `crossword_prompt.py` — clue table, error arbitration, focal-clue selection,
  interest ranking, board snapshot rendering and system-prompt assembly;
* `main.py` (`__main__` turn loop) — newly-completed detection, the
  per-turn control flow around prompt building and the text-generator call;
* `video/emotion_detector.py` — the emotion span aggregator
  (`_run` sampling transitions, `get_summary_and_reset`, `_detect_emotion`).

Python strings are modelled as `String` (sequences of unicode scalar
values), Python `int` as `ℤ`, wall-clock instants as `ℚ` (seconds), and
Python exceptions as an explicit `Except PyErr` result.  Python `dict`s
that the code iterates are modelled as insertion-ordered association
lists.  `float` timestamps are modelled as exact rationals; the only
float operation the sources perform on durations, `round(x, 2)`, is
modelled exactly as round-half-to-even at two decimals (`round2`).
-/

/-- Python exceptions that the embedded code can raise.  `main.py` catches
`KeyError` in one place, so the exception identity matters. -/
inductive PyErr where
  | keyError
  | valueError
  | indexError
  | other (msg : String)
deriving Repr, DecidableEq

deriving instance DecidableEq for Except

/-- Decimal digit accumulation for `pyInt`. -/
def digitsAux : List Char → Nat → Option Nat
  | [], acc => some acc
  | c :: rest, acc =>
    if c.isDigit then digitsAux rest (acc * 10 + (c.toNat - 48)) else none

/-- `int(s)` for the canonical (optionally negative) decimal strings
used as snapshot keys; anything else raises `ValueError`.  (Python's
`int` additionally strips whitespace and accepts `+`/underscores, which
dict keys serialized from the board never contain.) -/
def pyInt (s : String) : Except PyErr Int :=
  match s.data with
  | [] => .error .valueError
  | '-' :: rest =>
    match rest, digitsAux rest 0 with
    | _ :: _, some n => .ok (-(n : Int))
    | _, _ => .error .valueError
  | l =>
    match digitsAux l 0 with
    | some n => .ok ((n : Int))
    | none => .error .valueError

/-- A record of `CROSSWORD_CLUES` (`crossword_prompt.py`): direction,
number, hint, answer. -/
structure Clue where
  direction : String
  number : Int
  hint : String
  answer : String
deriving Repr, DecidableEq

/-- The static clue table `CROSSWORD_CLUES` of `crossword_prompt.py`,
verbatim. -/
def CROSSWORD_CLUES : List Clue := [
  ⟨"across", 2, "Country famous for Mozart and the Alps", "AUSTRIA"⟩,
  ⟨"across", 5, "Country whose canal connects the Atlantic and Pacific oceans", "PANAMA"⟩,
  ⟨"across", 6, "Island whose capital is Taipei", "TAIWAN"⟩,
  ⟨"across", 9, "Eastern land known for a monumental divide", "CHINA"⟩,
  ⟨"across", 11, "Where Plato and Socrates once strolled", "GREECE"⟩,
  ⟨"across", 12, "Smallest country in the world, home to St. Peter’s Basilica", "VATICANCITY"⟩,
  ⟨"across", 16, "Country that stretches from Europe to Asia", "RUSSIA"⟩,
  ⟨"across", 18, "South American country named like a pepper, with Santiago as its capital", "CHILE"⟩,
  ⟨"across", 21, "Caribbean country hit by a major earthquake in 2010", "HAITI"⟩,
  ⟨"across", 22, "Home of Usain Bolt and reggae music", "JAMAICA"⟩,
  ⟨"down", 1, "Country whose motto is Liberté, Égalité, Fraternité", "FRANCE"⟩,
  ⟨"down", 3, "European country whose capital is Madrid, famous for paella", "SPAIN"⟩,
  ⟨"down", 4, "Country whose capital is Kuala Lumpur", "MALAYSIA"⟩,
  ⟨"down", 7, "Country whose capital is Tehran and was once called Persia", "IRAN"⟩,
  ⟨"down", 8, "East African country whose capital is Nairobi", "KENYA"⟩,
  ⟨"down", 10, "Country whose capital is Baghdad, located between the Tigris and Euphrates", "IRAQ"⟩,
  ⟨"down", 13, "Country north of the United States known for maple syrup", "CANADA"⟩,
  ⟨"down", 14, "Central European country whose capital is Prague, formerly part of Czechoslovakia", "CZECHIA"⟩,
  ⟨"down", 15, "Middle Eastern country founded in 1948, capital Jerusalem", "ISRAEL"⟩,
  ⟨"down", 17, "Country whose ancient city of Damascus is one of the oldest continually inhabited", "SYRIA"⟩,
  ⟨"down", 19, "European country shaped like a boot, capital Rome", "ITALY"⟩,
  ⟨"down", 20, "African country whose ancient monuments include the Pyramids of Giza", "EGYPT"⟩]

/-- `s[0].upper()` for the statically nonempty direction strings of the
clue table ("across"/"down"); total because the table's directions are
nonempty. -/
def dirLetter (s : String) : String :=
  match s.data with
  | [] => ""
  | c :: _ => String.mk [c.toUpper]

/-- `s[0].upper()` as the code performs it on externally supplied
strings: an empty string raises `IndexError`. -/
def dirLetterE (s : String) : Except PyErr String :=
  match s.data with
  | [] => .error .indexError
  | c :: _ => .ok (String.mk [c.toUpper])

/-- The key `(c["direction"][0].upper(), c["number"])` under which a clue
is stored in `_CLUE_LOOKUP`. -/
def clueKey (c : Clue) : String × Int :=
  (dirLetter c.direction, c.number)

/-- `_CLUE_LOOKUP[(d, n)]` as a partial lookup: the dict comprehension
keys each table entry by `clueKey`; table keys are distinct, so first
match equals dict lookup.  `none` models a `KeyError`. -/
def clueLookup (k : String × Int) : Option Clue :=
  CROSSWORD_CLUES.find? (fun c => clueKey c = k)

/-- `_CLUE_LOOKUP[(d, n)]` raising `KeyError` when the pair is absent. -/
def clueLookupE (k : String × Int) : Except PyErr Clue :=
  match clueLookup k with
  | some c => .ok c
  | none => .error .keyError

/-- `p.ljust(n, fill)` on character lists: right-pad to length `n`
(unchanged when already at least that long). -/
def ljust (l : List Char) (n : Nat) (fill : Char) : List Char :=
  l ++ List.replicate (n - l.length) fill

/-- `_letters_filled(p)`: the number of characters of the pattern that
are not the empty-cell marker `'0'`. -/
def lettersFilled (p : String) : Nat :=
  p.data.countP (fun ch => ch ≠ '0')

/-- `_pretty(p)`: render a pattern with `'_'` in place of every `'0'`. -/
def pretty (p : String) : String :=
  String.mk (p.data.map (fun ch => if ch = '0' then '_' else ch))

/-- The per-clue mismatch test used by `_find_errors`:
`any(ch != "0" and ch != a for ch, a in zip(pat.ljust(len(ans), "0"), ans))`. -/
def erroneous (ans pat : String) : Bool :=
  ((ljust pat.data ans.data.length '0').zip ans.data).any
    (fun ca => ca.1 ≠ '0' && ca.1 ≠ ca.2)

/-- A puzzle snapshot's clue context (`state.get("clue_context", {})`),
with each field optional as in the source's `.get` accesses. -/
structure ClueCtx where
  direction : Option String
  clueLabel : Option String
deriving Repr, DecidableEq

/-- A `PuzzleSnapshot`: the two insertion-ordered
`clue-number-string ↦ pattern` mappings plus the optional clue context.
Python `dict` iteration order is insertion order, which the association
lists preserve. -/
structure PuzzleState where
  across : List (String × String)
  down : List (String × String)
  clue_context : Option ClueCtx
deriving Repr, DecidableEq

/-- `d[key]` on a snapshot direction mapping: `KeyError` when absent. -/
def dictGetE (l : List (String × String)) (key : String) : Except PyErr String :=
  match l.find? (fun e => e.1 = key) with
  | some e => .ok e.2
  | none => .error .keyError

/-- The error message `_find_errors` appends for an erroneous clue
(`crossword_prompt.py` line 70), built exactly as the f-string does. -/
def errMsg (dirL : String) (num : Int) (hint pat ans : String) : String :=
  "• (" ++ dirL ++ toString num ++ ") " ++ hint ++ " – typed “" ++ pretty pat ++
    "” doesn’t fit. (internal: " ++ ans ++ ")"

/-- The inner loop of `_find_errors` over one direction's snapshot
entries: skip `"undefined"` keys and empty patterns, parse the number,
look the clue up (a missing key raises `KeyError`), and collect a
message for every mismatching pattern, in iteration order. -/
def findErrorsDir (dirL : String) : List (String × String) → Except PyErr (List String)
  | [] => .ok []
  | (numStr, pat) :: rest =>
    if numStr = "undefined" ∨ pat = "" then findErrorsDir dirL rest
    else do
      let num ← pyInt numStr
      let clue ← clueLookupE (dirL, num)
      let msgs ← findErrorsDir dirL rest
      if erroneous clue.answer pat then
        .ok (errMsg dirL num clue.hint pat clue.answer :: msgs)
      else
        .ok msgs

/-- `_find_errors(state)`: across entries first, then down. -/
def findErrors (st : PuzzleState) : Except PyErr (List String) := do
  let a ← findErrorsDir "A" st.across
  let d ← findErrorsDir "D" st.down
  .ok (a ++ d)

/-- The spec's wording of the per-clue error test: some position `i` of
the pattern right-padded with `'0'` to the answer's length holds a
character that is neither `'0'` nor the answer's character at `i`. -/
def specMismatch (ans pat : String) : Bool :=
  (List.range ans.data.length).any (fun i =>
    let c := (ljust pat.data ans.data.length '0').getD i '0'
    c ≠ '0' && c ≠ ans.data.getD i '0')

/-- The spec's description of what one snapshot entry contributes to the
error list: nothing for `"undefined"` keys, empty patterns, unparsable
numbers, unknown clue keys or matching patterns; otherwise the clue's
error message. -/
def specErrEntry (dirL : String) (e : String × String) : Option String :=
  if e.1 = "undefined" ∨ e.2 = "" then none
  else
    (pyInt e.1).toOption.bind fun n =>
      (clueLookup (dirL, n)).bind fun c =>
        if specMismatch c.answer e.2 then some (errMsg dirL n c.hint e.2 c.answer) else none

/-- A snapshot entry is valid when its key is `"undefined"` or parses to
a number present in the clue table. -/
def entryValid (dirL : String) (e : String × String) : Bool :=
  e.1 = "undefined" ||
    (match pyInt e.1 with
     | .ok n => (clueLookup (dirL, n)).isSome
     | .error _ => false)

/-- Every entry of the snapshot references the clue table correctly. -/
def validState (st : PuzzleState) : Bool :=
  st.across.all (entryValid "A") && st.down.all (entryValid "D")

/-- The scan `_choose_focal` performs over one direction: the first
entry (in snapshot iteration order) whose key is not `"undefined"` and
whose pattern contains an empty cell. -/
def scanFocalDir (dirL : String) : List (String × String) → Except PyErr (Option (String × Int))
  | [] => .ok none
  | (numStr, pat) :: rest =>
    if numStr != "undefined" && pat.data.contains '0' then do
      let n ← pyInt numStr
      .ok (some (dirL, n))
    else scanFocalDir dirL rest

/-- `_choose_focal(state)`: an explicit override from the clue context
wins; otherwise scan across then down in snapshot iteration order for
the first pattern with an empty cell; otherwise fall back to
`CROSSWORD_CLUES[0]`. -/
def chooseFocal (st : PuzzleState) : Except PyErr (String × Int) :=
  match (st.clue_context.getD ⟨none, none⟩).clueLabel with
  | some lbl =>
    match (st.clue_context.getD ⟨none, none⟩).direction with
    | none => .error .keyError
    | some ds => do
      let dl ← dirLetterE ds
      let n ← pyInt lbl
      .ok (dl, n)
  | none => do
    match ← scanFocalDir "A" st.across with
    | some r => .ok r
    | none =>
      match ← scanFocalDir "D" st.down with
      | some r => .ok r
      | none =>
        match CROSSWORD_CLUES with
        | c :: _ => .ok (clueKey c)
        | [] => .error .indexError

/-- The claim's focal-selection rule, as the spec words it: with no
override, scan the across entries then the down entries *in ascending
clue-number order within each direction* and return the first clue whose
pattern contains an empty cell; if none does, the first clue in
table-declaration order. -/
def specFocalOrder (st : PuzzleState) : Option (String × Int) :=
  let parse := fun (l : List (String × String)) =>
    l.filterMap (fun e =>
      if e.1 = "undefined" then none
      else (pyInt e.1).toOption.map (fun n => (n, e.2)))
  let sorted := fun (l : List (Int × String)) => l.insertionSort (fun a b => a.1 ≤ b.1)
  match (sorted (parse st.across)).find? (fun e => e.2.data.contains '0') with
  | some e => some ("A", e.1)
  | none =>
    match (sorted (parse st.down)).find? (fun e => e.2.data.contains '0') with
    | some e => some ("D", e.1)
    | none => (CROSSWORD_CLUES.head?).map clueKey

/-- The condition `_choose_focal`'s scan tests on a snapshot entry:
key not `"undefined"` and pattern containing an empty cell. -/
def focCond (e : String × String) : Bool :=
  e.1 != "undefined" && e.2.data.contains '0'

/-- The focal-selection rule the code actually implements: same as
`specFocalOrder` but in snapshot iteration order (across before down),
not ascending number order. -/
def specFocalIter (st : PuzzleState) : String × Int :=
  match ((st.across.find? focCond).map (fun e => ("A", (pyInt e.1).toOption.getD 0))).orElse
      (fun _ => (st.down.find? focCond).map (fun e => ("D", (pyInt e.1).toOption.getD 0))) with
  | some r => r
  | none => ((CROSSWORD_CLUES.head?).map clueKey).getD ("", 0)

/-- Substring containment at the character level: `sub` occurs
contiguously inside `s`. -/
def strContains (s sub : String) : Prop :=
  ∃ l r : List Char, s.data = l ++ sub.data ++ r

/-- The item tuple `(-_letters_filled(pat), dir-letter, num, pat, answer)`
that `_interesting` collects for each candidate clue and then sorts with
Python's lexicographic tuple order. -/
abbrev ItemT : Type := Int × String × Int × String × String

/-- The candidate key `(direction-letter, number)` of an item tuple. -/
def itemKey (t : ItemT) : String × Int := (t.2.1, t.2.2.1)

/-- Python's `<` on strings: lexicographic comparison of the unicode
code-point sequences (structurally recursive, unlike the library's
iterator-based order). -/
def listLTb : List Char → List Char → Bool
  | [], [] => false
  | [], _ :: _ => true
  | _ :: _, [] => false
  | c :: cs, d :: ds => if c < d then true else if d < c then false else listLTb cs ds

/-- Strict Python string comparison. -/
def pyStrLT (a b : String) : Prop := listLTb a.data b.data = true

/-- Non-strict Python string comparison. -/
def pyStrLE (a b : String) : Prop := pyStrLT a b ∨ a = b

instance : DecidableRel pyStrLT := fun a b => by
  unfold pyStrLT
  infer_instance

instance : DecidableRel pyStrLE := fun a b => by
  unfold pyStrLE
  infer_instance

/-- Python's `<=` on the 5-tuples `_interesting` sorts: lexicographic,
comparing the negated fill count, then the direction letter, then the
number, then the pattern, then the answer. -/
def pyTupLE (a b : ItemT) : Prop :=
  a.1 < b.1 ∨ (a.1 = b.1 ∧ (pyStrLT a.2.1 b.2.1 ∨ (a.2.1 = b.2.1 ∧
    (a.2.2.1 < b.2.2.1 ∨ (a.2.2.1 = b.2.2.1 ∧
      (pyStrLT a.2.2.2.1 b.2.2.2.1 ∨ (a.2.2.2.1 = b.2.2.2.1 ∧ pyStrLE a.2.2.2.2 b.2.2.2.2)))))))

instance : DecidableRel pyTupLE := fun a b => by
  unfold pyTupLE
  infer_instance

/-- The collection loop of `_interesting` over one direction: skip
`"undefined"` keys, parse the number, skip the focal clue and patterns
with no empty cell, look the clue up (`KeyError` when unknown), and
collect the sort tuple. -/
def collectDir (dirL : String) (excl : String × Int) :
    List (String × String) → Except PyErr (List ItemT)
  | [] => .ok []
  | (numStr, pat) :: rest =>
    if numStr = "undefined" then collectDir dirL excl rest
    else do
      let n ← pyInt numStr
      if (dirL, n) = excl ∨ ¬(pat.data.contains '0' = true) then
        collectDir dirL excl rest
      else do
        let c ← clueLookupE (dirL, n)
        let items ← collectDir dirL excl rest
        .ok ((-(lettersFilled pat : Int), dirL, n, pat, c.answer) :: items)

/-- The bullet line `_interesting` renders for a ranked candidate. -/
def renderPick (t : ItemT) : String :=
  "• (" ++ t.2.1 ++ toString t.2.2.1 ++ ") “" ++ pretty t.2.2.2.1 ++ "” (int:" ++ t.2.2.2.2 ++ ")"

/-- `_interesting(state, excl, k)`: collect candidates from both
directions, sort the tuples (`items.sort()`, modelled as an insertion
sort under Python's tuple order — any stable comparison sort yields this
output), and render the first `k`. -/
def interesting (st : PuzzleState) (excl : String × Int) (k : Nat := 2) :
    Except PyErr (List String) := do
  let itemsA ← collectDir "A" excl st.across
  let itemsD ← collectDir "D" excl st.down
  .ok ((((itemsA ++ itemsD).insertionSort pyTupLE).take k).map renderPick)

/-- What one snapshot entry contributes to the candidate list of
`_interesting`, per the spec's words: it must not be the focal clue,
must have at least one empty cell, and must reference a known clue. -/
def specItemEntry (dirL : String) (excl : String × Int) (e : String × String) : Option ItemT :=
  if e.1 = "undefined" then none
  else
    (pyInt e.1).toOption.bind fun n =>
      if (dirL, n) = excl ∨ ¬(e.2.data.contains '0' = true) then none
      else
        (clueLookup (dirL, n)).map fun c =>
          (-(lettersFilled e.2 : Int), dirL, n, e.2, c.answer)

/-- The full candidate list of a snapshot (across then down). -/
def specItems (st : PuzzleState) (excl : String × Int) : List ItemT :=
  st.across.filterMap (specItemEntry "A" excl) ++ st.down.filterMap (specItemEntry "D" excl)

/-- The clue table's declaration index of a key. -/
def tblIdx (key : String × Int) : Nat :=
  CROSSWORD_CLUES.findIdx (fun c => clueKey c = key)

/-- The spec's ranking order: descending count of non-`'0'` characters,
ties broken by the clue table's declaration order. -/
def specLE (a b : ItemT) : Prop :=
  lettersFilled b.2.2.2.1 < lettersFilled a.2.2.2.1 ∨
    (lettersFilled a.2.2.2.1 = lettersFilled b.2.2.2.1 ∧ tblIdx (itemKey a) ≤ tblIdx (itemKey b))

instance : DecidableRel specLE := fun a b => by
  unfold specLE
  infer_instance

/-- The `(direction-letter, number)` key a snapshot entry references, or
`none` for `"undefined"` or unparsable keys. -/
def snapKeyFn (dirL : String) (e : String × String) : Option (String × Int) :=
  if e.1 = "undefined" then none
  else (pyInt e.1).toOption.map (fun n => (dirL, n))

/-- The per-direction snapshot keys, used to state that a snapshot has
no duplicate clue references. -/
def snapKeys (dirL : String) (l : List (String × String)) : List (String × Int) :=
  l.filterMap (snapKeyFn dirL)

/-- The `recently_completed` loop of `main.py` (lines 182-192) over one
direction: skip `"undefined"` keys, empty patterns and patterns with an
empty cell; parse the number, look the answer up (`KeyError` when the
pair is unknown), and when the pattern equals the answer and the key is
not yet in the completed set, add it to the set and report it. -/
def rcDir (dirL : String) :
    List (String × String) → List (String × Int) → List (String × Int) →
      Except PyErr (List (String × Int) × List (String × Int))
  | [], completed, acc => .ok (completed, acc)
  | (numStr, pat) :: rest, completed, acc =>
    if numStr = "undefined" ∨ pat = "" ∨ pat.data.contains '0' = true then
      rcDir dirL rest completed acc
    else do
      let n ← pyInt numStr
      let c ← clueLookupE (dirL, n)
      if pat = c.answer ∧ (dirL, n) ∉ completed then
        rcDir dirL rest (completed ++ [(dirL, n)]) (acc ++ [(dirL, n)])
      else
        rcDir dirL rest completed acc

/-- The whole `recently_completed` computation of one turn: across then
down, threading the completed set; returns the updated completed set and
the reported keys, in iteration order. -/
def recentlyCompleted (completed : List (String × Int)) (st : PuzzleState) :
    Except PyErr (List (String × Int) × List (String × Int)) := do
  let ar ← rcDir "A" st.across completed []
  rcDir "D" st.down ar.1 ar.2

/-- The spec's wording of what one entry reports, relative to a fixed
completed set: the pattern has no empty cell, is non-empty, equals the
stored answer exactly, and the key is not already completed. -/
def completedCond (dirL : String) (completed : List (String × Int)) (e : String × String) :
    Option (String × Int) :=
  if e.1 = "undefined" ∨ e.2 = "" ∨ e.2.data.contains '0' = true then none
  else
    (pyInt e.1).toOption.bind fun n =>
      (clueLookup (dirL, n)).bind fun c =>
        if e.2 = c.answer ∧ (dirL, n) ∉ completed then some (dirL, n) else none

/-- The keys one turn reports, per the spec, with the across scan not
affecting the down scan (their keys live in disjoint namespaces). -/
def specRecent (completed : List (String × Int)) (st : PuzzleState) : List (String × Int) :=
  st.across.filterMap (completedCond "A" completed) ++
    st.down.filterMap (completedCond "D" completed)

/-- Iterated newly-completed detection over a sequence of snapshots,
with the completed set carried across turns, as the `while` loop does. -/
def runDetection (completed : List (String × Int)) :
    List PuzzleState → Except PyErr (List (List (String × Int)) × List (String × Int))
  | [] => .ok ([], completed)
  | st :: rest => do
    let cr ← recentlyCompleted completed st
    let rs ← runDetection cr.1 rest
    .ok (cr.2 :: rs.1, rs.2)

/-- `_HEADER` of `crossword_prompt.py` (adjacent Python string literals
concatenate with no separator). -/
def HEADER : String :=
  "### ROLE" ++
  "You are a friendly robot sitting beside the user, helping solve a **country-themed crossword**." ++
  "Speak in *first person* (“I”). Offer encouragement, clever hints, or ligh conversation" ++
  "chit-chat about geography or the puzzle itself — but **never** reveal a full answer." ++
  "Your replies will be spoken aloud; keep them natural and concise, like a human assistant."

/-- `_GUIDE` of `crossword_prompt.py`. -/
def GUIDE : String :=
  "### RESPONSE GUIDELINES" ++
  "Reply with **one or two upbeat sentences** since you’ll be spoken aloud." ++
  "1. If the user has an error (and you haven’t mentioned it yet), politely tell it to the user." ++
  "2. If they just solved a word, celebrate briefly then consider a light geography/small-talk question." ++
  "3. Otherwise choose one:" ++
  "   • a subtle hint for the current clue (without asking permission)" ++
  "   • a nudge toward an interesting partly-filled clue" ++
  "   • or a brief geography/food/sports chit-chat (e.g., “Ever visited Chile?”)." ++
  "4. Do not recite the full clue; refer by number or a short nickname (e.g., “Bolt’s island”)." ++
  "5. Suggest switching clues only after sustained silence (> idle_threshold) or clear frustration." ++
  "6. Speak letters plainly: “middle letter is N”. Never show underscores in speech." ++
  "7. Only reveal the entire answer if the user explicitly requests full spelling; then spell slowly." ++
  "8. Its better to not state to many things in one reply, also not nescesary to immediately go to the next clue"

/-- `_EXAMPLES` of `crossword_prompt.py`. -/
def EXAMPLES : String :=
  "### EXAMPLES" ++
  "**Error correction**" ++
  "ASSISTANT: You’ve made a mistake, grease is spelled incorrectly 😉" ++
  "**Celebration & pivot**" ++
  "(after the user finishes PANAMA)" ++
  "ASSISTANT: Nice work with Panama! Ever fancied visiting the canal?" ++
  "**Idle re-engagement**" ++
  "(20+ seconds silence)" ++
  "ASSISTANT: Quiet moment—need a hint on Austria, or shall we chat travel?"

/-- `_snapshot`'s inner loop over one direction: render
`<number>:<pretty-pattern>` for every entry not excluded and still
holding an empty cell. -/
def snapshotDir (dirL : String) (excl : List (String × Int)) :
    List (String × String) → Except PyErr (List String)
  | [] => .ok []
  | (numStr, pat) :: rest =>
    if numStr = "undefined" then snapshotDir dirL excl rest
    else do
      let n ← pyInt numStr
      if (dirL, n) ∈ excl ∨ ¬(pat.data.contains '0' = true) then
        snapshotDir dirL excl rest
      else do
        let cells ← snapshotDir dirL excl rest
        .ok ((toString n ++ ":" ++ pretty pat) :: cells)

/-- `_snapshot(state, excl)`: group the remaining unsolved entries by
direction, or the sentinel `"(all filled!)"`. -/
def snapshotStr (st : PuzzleState) (excl : List (String × Int)) : Except PyErr String := do
  let ca ← snapshotDir "A" excl st.across
  let cd ← snapshotDir "D" excl st.down
  let rows := (if ca ≠ [] then ["A: " ++ String.intercalate ", " ca] else []) ++
    (if cd ≠ [] then ["D: " ++ String.intercalate ", " cd] else [])
  .ok (if rows ≠ [] then String.intercalate " | " rows else "(all filled!)")

/-- `create_system_prompt(game_state, silence_seconds, idle_threshold,
recently_completed)`: assembles the prompt parts in source order and
joins them with blank lines.  Any `KeyError` raised inside (unknown clue
reference, focal clue missing from the snapshot) propagates to the
caller. -/
def createSystemPrompt (game_state : PuzzleState) (silence_seconds : Int)
    (idle_threshold : Int := 20) (recently_completed : List (String × Int) := []) :
    Except PyErr String := do
  let errs ← findErrors game_state
  let parts1 := [HEADER, "\n### BOARD"] ++
    (if errs ≠ [] then ["Errors:\n" ++ String.intercalate "\n" errs] else [])
  let parts2 := parts1 ++ (if recently_completed ≠ [] then
    ["Solved: " ++ String.intercalate ", "
      (recently_completed.map (fun dn => dn.1 ++ toString dn.2))] else [])
  let dn ← chooseFocal game_state
  let clue ← clueLookupE dn
  let pattern ← dictGetE (if dn.1 = "A" then game_state.across else game_state.down)
    (toString dn.2)
  let parts3 := parts2 ++ ["The user is currently focused at " ++ dn.1 ++ toString dn.2 ++
    ". Hint: " ++ clue.hint ++ ". Pattern: " ++ pretty pattern ++ ". (internal: " ++
    clue.answer ++ ")"]
  let picks ← interesting game_state dn 2
  let parts4 := parts3 ++
    (if picks ≠ [] then ["\nTry next?\n" ++ String.intercalate "\n" picks] else [])
  let snap ← snapshotStr game_state [dn]
  let parts5 := parts4 ++ ["\nUnsolved snapshot (internal):\n" ++ snap]
  let parts6 := parts5 ++ (if silence_seconds ≥ idle_threshold then
    ["\n### IDLE\nUser has been quiet → offer help or small‑talk."] else [])
  .ok (String.intercalate "\n\n" (parts6 ++ ["\n" ++ GUIDE, "\n" ++ EXAMPLES]))

/-- The placeholder prompt used when the crossword is not connected
(`main.py` line 208). -/
def PLACEHOLDER : String := "### ROLE\ncrossword puzzle not yet connected."

/-- What one completed turn of the `__main__` loop produces. -/
structure TurnOutcome where
  recent : List (String × Int)
  completedSet : List (String × Int)
  systemMsg : String
  spoken : Option String
deriving Repr, DecidableEq

/-- One iteration of the `__main__` turn loop after an utterance has
been obtained (`main.py` lines 168-247): run newly-completed detection
(an exception here propagates), build the system prompt with only
`KeyError` caught (falling back to the placeholder; an empty snapshot
raises `KeyError` deliberately), then call the external text generator —
whose exception, and any other uncaught one, leaves the loop.  On
success the reply is spoken. -/
def processTurn (completedSet : List (String × Int)) (snap : Option PuzzleState)
    (idleSec : Int) (genResult : Except PyErr String) : Except PyErr TurnOutcome := do
  let cr ← match snap with
    | none => pure (completedSet, ([] : List (String × Int)))
    | some st => recentlyCompleted completedSet st
  let sysRes : Except PyErr String := match snap with
    | none => .error .keyError
    | some st => createSystemPrompt st idleSec 20 cr.2
  let systemMsg ← match sysRes with
    | .ok s => pure s
    | .error .keyError => pure PLACEHOLDER
    | .error e => .error e
  let assistantText ← genResult
  .ok ⟨cr.2, cr.1, systemMsg, some assistantText⟩

/-- How the `while True` loop ends: the modelled input stream runs out,
the user says "quit", or an uncaught exception leaves the loop — in the
latter two cases the process runs teardown and exits. -/
inductive LoopExit where
  | exhausted
  | quit
  | crashed (e : PyErr)
deriving Repr, DecidableEq

/-- One turn's external inputs: the utterance, the board snapshot (with
`none` for a falsy/empty state), the idle seconds, and the outcome of
the external generator call. -/
structure TurnInput where
  userInput : String
  snap : Option PuzzleState
  idleSec : Int
  genResult : Except PyErr String

/-- Strip ASCII whitespace from both ends. -/
def stripChars (l : List Char) : List Char :=
  ((l.dropWhile Char.isWhitespace).reverse.dropWhile Char.isWhitespace).reverse

/-- `user_input.lower().strip() == "quit"` (ASCII case folding, which
covers the transcription alphabet). -/
def pyQuit (s : String) : Bool :=
  String.mk (stripChars (s.data.map Char.toLower)) = "quit"

/-- The `__main__` turn loop over a finite stream of turn inputs: stop
on "quit"; an uncaught exception ends the loop (`crashed`), dropping all
remaining turns — the `except KeyboardInterrupt`/`finally` block then
tears the process down, so the loop is never re-entered. -/
def runLoop (completedSet : List (String × Int)) :
    List TurnInput → List TurnOutcome × LoopExit
  | [] => ([], .exhausted)
  | inp :: rest =>
    if pyQuit inp.userInput then ([], .quit)
    else
      match processTurn completedSet inp.snap inp.idleSec inp.genResult with
      | .error e => ([], .crashed e)
      | .ok out =>
        let r := runLoop out.completedSet rest
        (out :: r.1, r.2)

/-- Python's `round` to the nearest integer, halves to even, on exact
rationals. -/
def roundHalfEven (q : ℚ) : Int :=
  if q - ⌊q⌋ < 1/2 then ⌊q⌋
  else if 1/2 < q - ⌊q⌋ then ⌊q⌋ + 1
  else (if ⌊q⌋ % 2 = 0 then ⌊q⌋ else ⌊q⌋ + 1)

/-- `round(x, 2)` as `emotion_detector.py` applies it to every recorded
span duration. -/
def round2 (q : ℚ) : ℚ := (roundHalfEven (100 * q) : ℚ) / 100

/-- `period = 1.0 / self.fps`, the sampling period of `_run`. -/
def period (fps : ℚ) : ℚ := 1 / fps

/-- The aggregator state of `EmotionDetector`: the open span's label
(`current_emotion`), its start time (`_span_start`) and the buffered
closed spans (`_emo_spans`). -/
structure DetState where
  currentEmotion : Option String
  spanStart : ℚ
  emoSpans : List (String × ℚ)
deriving Repr, DecidableEq

/-- The state `start()` establishes: no open label, span clock at `now`,
empty buffer. -/
def initDet (t0 : ℚ) : DetState := ⟨none, t0, []⟩

/-- One sampling tick of `_run` at time `t` that classified the frame as
`label`: if the label differs from the open span's label (a string never
equals `None`), close the open span with its rounded duration and open a
new one at `t`; otherwise nothing changes. -/
def stepSample (s : DetState) (t : ℚ) (label : String) : DetState :=
  if some label ≠ s.currentEmotion then
    match s.currentEmotion with
    | some e => ⟨some label, t, s.emoSpans ++ [(e, round2 (t - s.spanStart))]⟩
    | none => ⟨some label, t, s.emoSpans⟩
  else s

/-- `get_summary_and_reset()` at time `t`: close the open span as of
`t`, immediately reopen a span for the same label starting at `t`, and
move all buffered spans out.  With no open span, just drain the
buffer. -/
def drainStep (s : DetState) (t : ℚ) : DetState × List (String × ℚ) :=
  match s.currentEmotion with
  | some e => (⟨some e, t, []⟩, s.emoSpans ++ [(e, round2 (t - s.spanStart))])
  | none => (⟨none, s.spanStart, []⟩, s.emoSpans)

/-- An observable event of the aggregator: a classified sample inside
`_run`, or a `get_summary_and_reset` call. -/
inductive DetEvent where
  | sample (t : ℚ) (label : String)
  | drain (t : ℚ)
deriving Repr, DecidableEq

/-- Run the aggregator over a sequence of events, concatenating
everything the drains return. -/
def runTrace : DetState → List DetEvent → DetState × List (String × ℚ)
  | s, [] => (s, [])
  | s, .sample t l :: es => runTrace (stepSample s t l) es
  | s, .drain t :: es =>
    let sd := drainStep s t
    let r := runTrace sd.1 es
    (r.1, sd.2 ++ r.2)

/-- Total of the durations in a span list (what summing the
`EmotionSummary` values gives). -/
def sumDur (l : List (String × ℚ)) : ℚ := (l.map Prod.snd).sum

def eventTime : DetEvent → ℚ
  | .sample t _ => t
  | .drain t => t

/-- The times at which samples were classified. -/
def sampleTimes (es : List DetEvent) : List ℚ :=
  es.filterMap (fun e => match e with | .sample t _ => some t | .drain _ => none)

/-- The trace begins with a sample at time `t0`. -/
def headSampleAt (t0 : ℚ) : List DetEvent → Bool
  | .sample t _ :: _ => t = t0
  | _ => false

/-- The time sequence is nondecreasing. -/
def chainLE : List ℚ → Bool
  | [] => true
  | [_] => true
  | a :: b :: r => decide (a ≤ b) && chainLE (b :: r)

/-- The claim's setting: a positive sampling period `p`, sampling
starting at `t0` and continuing at the fixed rate through the whole
trace, events in time order, and a final drain at time `T`. -/
def validTrace (p t0 T : ℚ) (es : List DetEvent) : Prop :=
  0 < p ∧ headSampleAt t0 es = true ∧ chainLE (es.map eventTime) = true ∧
  sampleTimes es = (List.range (sampleTimes es).length).map (fun k => t0 + k * p) ∧
  T ≤ t0 + (sampleTimes es).length * p ∧
  es.getLast? = some (.drain T)

instance (p t0 T : ℚ) (es : List DetEvent) : Decidable (validTrace p t0 T es) := by
  unfold validTrace
  infer_instance

/-- `method.upper()` from the constructor. -/
def pyUpper (s : String) : String := String.mk (s.data.map Char.toUpper)

/-- `_detect_emotion(frame)`: with the RMN method and a model present,
query the classifier — whose exception propagates, there is no handler —
and return the first detection's label, or `"no-face"` when it returns
no detections; with any other method, `"no-face"`.  The classifier
outcome is the list of detected labels or a raised exception. -/
def detectEmotion (method : String) (modelPresent : Bool)
    (classifierResult : Except PyErr (List String)) : Except PyErr String :=
  if method = "RMN" ∧ modelPresent then
    classifierResult >>= fun dets =>
      pure (match dets with | [] => "no-face" | lbl :: _ => lbl)
  else pure "no-face"

/-- One classification step of the `_run` loop body: classify, then
update the span state; a classifier exception propagates out of the
loop, terminating the sampler thread. -/
def runTick (s : DetState) (t : ℚ) (method : String) (modelPresent : Bool)
    (cls : Except PyErr (List String)) : Except PyErr DetState :=
  (detectEmotion method modelPresent cls).map (stepSample s t)

/-- The trace refuting the claim's "within one sampling period" bound:
fps = 100 (period 0.01 s), one label throughout, and three drains spaced
0.016 s apart, each of whose spans rounds up to 0.02 s. -/
def exC1Events : List DetEvent :=
  [.sample 0 "n", .sample (1/100) "n", .drain (2/125), .sample (1/50) "n",
   .sample (3/100) "n", .drain (4/125), .sample (1/25) "n", .drain (6/125)]

@[simp] theorem except_ok_bind {ε α β : Type} (a : α) (f : α → Except ε β) :
    (Except.ok a >>= f) = f a := rfl

@[simp] theorem except_error_bind {ε α β : Type} (e : ε) (f : α → Except ε β) :
    ((Except.error e : Except ε α) >>= f) = Except.error e := rfl

@[simp] theorem except_toOption_ok {ε α : Type} (a : α) :
    (Except.ok a : Except ε α).toOption = some a := rfl

@[simp] theorem except_toOption_error {ε α : Type} (e : ε) :
    (Except.error e : Except ε α).toOption = none := rfl

theorem clueLookupE_ok (k : String × Int) (c : Clue) (h : clueLookup k = some c) :
    clueLookupE k = .ok c := by
  unfold clueLookupE; rw [h]

theorem clueLookupE_err (k : String × Int) (h : clueLookup k = none) :
    clueLookupE k = .error .keyError := by
  unfold clueLookupE; rw [h]

theorem lettersFilled_example : lettersFilled "PAN0M0" = 4 := by decide

theorem pretty_example : pretty "PANAM0" = "PANAM_" := by decide

theorem erroneous_example :
    erroneous "PANAMA" "PANAM0" = false ∧ erroneous "PANAMA" "PANADA" = true := by decide

theorem zipTakeLeft {α β : Type} (a : List β) : ∀ l : List α, l.zip a = (l.take a.length).zip a := by
  induction a with
  | nil => intro l; simp
  | cons b bs ih =>
    intro l
    cases l with
    | nil => simp
    | cons x xs => simpa using ih xs

theorem anyZipRange (f : Char → Char → Bool) :
    ∀ (a l : List Char), a.length ≤ l.length →
      (l.zip a).any (fun p => f p.1 p.2) =
        (List.range a.length).any (fun i => f (l.getD i '0') (a.getD i '0')) := by
  intro a
  induction a with
  | nil => simp
  | cons b bs ih =>
    intro l h
    cases l with
    | nil => simp at h
    | cons x xs =>
      have h' : bs.length ≤ xs.length := by simpa using h
      simp only [List.zip_cons_cons, List.any_cons, List.length_cons,
        List.range_succ_eq_map, List.any_map]
      simp only [Function.comp_def, List.getD_cons_zero, List.getD_cons_succ]
      rw [ih xs h']

theorem length_ljust (l : List Char) (n : Nat) (c : Char) :
    (ljust l n c).length = max l.length n := by
  simp [ljust]; omega

theorem ljust_take (p : List Char) (n : Nat) (c : Char) :
    (ljust p n c).take n = (ljust (p.take n) n c).take n := by
  rcases le_or_lt p.length n with h | h
  · rw [List.take_of_length_le h]
  · have h1 : n - p.length = 0 := by omega
    have h2 : (p.take n).length = n := by simp; omega
    simp [ljust, h1, h2]

theorem specMismatch_eq_erroneous (ans pat : String) :
    specMismatch ans pat = erroneous ans pat := by
  have hlen : ans.data.length ≤ (ljust pat.data ans.data.length '0').length := by
    rw [length_ljust]; omega
  unfold specMismatch erroneous
  rw [anyZipRange (fun c a => decide (c ≠ '0') && decide (c ≠ a)) ans.data _ hlen]

theorem erroneous_take (ans pat : String) :
    erroneous ans pat = erroneous ans (String.mk (pat.data.take ans.data.length)) := by
  unfold erroneous
  rw [zipTakeLeft, zipTakeLeft ans.data (ljust (String.mk (pat.data.take ans.data.length)).data ans.data.length '0')]
  rw [show (String.mk (pat.data.take ans.data.length)).data = pat.data.take ans.data.length from rfl]
  rw [ljust_take]

/-- C10: in error detection, a pattern longer than the stored answer is
compared only on its first `len(answer)` characters: truncating the
pattern to the answer's length never changes the verdict, and characters
appended beyond the answer's length never make a clue erroneous. -/
theorem C10_long_pattern_ignored (ans pat : String) :
    erroneous ans pat = erroneous ans (String.mk (pat.data.take ans.data.length)) ∧
    (∀ extra : String, ans.data.length ≤ pat.data.length →
      erroneous ans (String.mk (pat.data ++ extra.data)) = erroneous ans pat) := by
  refine ⟨erroneous_take ans pat, ?_⟩
  intro extra h
  rw [erroneous_take ans (String.mk (pat.data ++ extra.data))]
  rw [show (String.mk (pat.data ++ extra.data)).data = pat.data ++ extra.data from rfl]
  rw [List.take_append_of_le_length h]
  exact (erroneous_take ans pat).symm

theorem C10_witness :
    erroneous "CHINA" "CHINAXY" = erroneous "CHINA" (String.mk ("CHINAXY".data.take "CHINA".data.length)) ∧
    erroneous "CHINA" (String.mk ("CHINAXY".data ++ "ZQ".data)) = erroneous "CHINA" "CHINAXY" :=
  ⟨(C10_long_pattern_ignored "CHINA" "CHINAXY").1,
   (C10_long_pattern_ignored "CHINA" "CHINAXY").2 "ZQ" (by decide)⟩

theorem findErrorsDir_eq (dirL : String) :
    ∀ entries : List (String × String), entries.all (entryValid dirL) = true →
      findErrorsDir dirL entries = .ok (entries.filterMap (specErrEntry dirL)) := by
  intro entries
  induction entries with
  | nil => intro _; rfl
  | cons e rest ih =>
    intro h
    rw [List.all_cons, Bool.and_eq_true] at h
    obtain ⟨he, hrest⟩ := h
    obtain ⟨numStr, pat⟩ := e
    by_cases hskip : numStr = "undefined" ∨ pat = ""
    · rw [findErrorsDir, if_pos hskip, ih hrest]
      simp [specErrEntry, hskip]
    · have hnu : numStr ≠ "undefined" := fun hc => hskip (Or.inl hc)
      unfold entryValid at he
      rw [Bool.or_eq_true, decide_eq_true_iff] at he
      rcases he with he | he
      · exact absurd he hnu
      · cases hpy : pyInt numStr with
        | error err => rw [hpy] at he; simp at he
        | ok n =>
          rw [hpy] at he
          have he' : (clueLookup (dirL, n)).isSome = true := by simpa using he
          rw [Option.isSome_iff_exists] at he'
          obtain ⟨c, hlk⟩ := he'
          · rw [findErrorsDir, if_neg hskip, hpy]
            simp only [except_ok_bind]
            rw [clueLookupE_ok _ _ hlk]
            simp only [except_ok_bind]
            rw [ih hrest]
            simp only [except_ok_bind]
            by_cases herr : erroneous c.answer pat = true
            · simp [List.filterMap_cons, specErrEntry, hskip, hpy, hlk,
                specMismatch_eq_erroneous, herr]
            · rw [Bool.not_eq_true] at herr
              simp [List.filterMap_cons, specErrEntry, hskip, hpy, hlk,
                specMismatch_eq_erroneous, herr]

theorem getD_all_eq (c : Char) : ∀ (l : List Char) (i : Nat), (∀ x ∈ l, x = c) → l.getD i c = c := by
  intro l
  induction l with
  | nil => intro i _; simp
  | cons x xs ih =>
    intro i h
    cases i with
    | zero => simpa using h x (by simp)
    | succ j =>
      rw [List.getD_cons_succ]
      exact ih j (fun y hy => h y (by simp [hy]))

theorem specMismatch_all_zero (ans pat : String) (h : pat.data.all (fun ch => ch = '0') = true) :
    specMismatch ans pat = false := by
  rw [List.all_eq_true] at h
  unfold specMismatch
  rw [List.any_eq_false]
  intro i _
  have hall : ∀ x ∈ ljust pat.data ans.data.length '0', x = '0' := by
    intro x hx
    rcases List.mem_append.mp hx with hx | hx
    · exact of_decide_eq_true (h x hx)
    · exact List.eq_of_mem_replicate hx
  rw [getD_all_eq '0' _ i hall]
  simp

/-- C2: for every valid snapshot, the arbitration error list is exactly
the in-order list of messages of the clues whose pattern, right-padded
with `'0'` to the answer's length, holds at some position a character
that is neither `'0'` nor the answer's character there; an entry
contributes a message precisely under that mismatch condition, and a
clue whose pattern has no non-`'0'` character never appears. -/
theorem C2_error_list_exact (st : PuzzleState) (h : validState st = true) :
    findErrors st =
      .ok (st.across.filterMap (specErrEntry "A") ++ st.down.filterMap (specErrEntry "D")) ∧
    (∀ dirL e, (specErrEntry dirL e).isSome = true ↔
      (e.1 ≠ "undefined" ∧ e.2 ≠ "" ∧ ∃ n c, pyInt e.1 = .ok n ∧
        clueLookup (dirL, n) = some c ∧ specMismatch c.answer e.2 = true)) ∧
    (∀ dirL e, e.2.data.all (fun ch => ch = '0') = true → specErrEntry dirL e = none) := by
  unfold validState at h
  rw [Bool.and_eq_true] at h
  refine ⟨?_, ?_, ?_⟩
  · unfold findErrors
    rw [findErrorsDir_eq "A" st.across h.1]
    simp only [except_ok_bind]
    rw [findErrorsDir_eq "D" st.down h.2]
    simp only [except_ok_bind]
  · intro dirL e
    unfold specErrEntry
    by_cases hskip : e.1 = "undefined" ∨ e.2 = ""
    · rw [if_pos hskip]
      refine iff_of_false (by simp) ?_
      rintro ⟨h1, h2, _⟩
      rcases hskip with hc | hc
      exacts [h1 hc, h2 hc]
    · rw [if_neg hskip]
      push_neg at hskip
      cases hpy : pyInt e.1 with
      | error err =>
        simp only [except_toOption_error, Option.none_bind]
        refine iff_of_false (by simp) ?_
        rintro ⟨_, _, n, c, hm, _, _⟩
        cases hm
      | ok n =>
        simp only [except_toOption_ok, Option.some_bind]
        cases hlk : clueLookup (dirL, n) with
        | none =>
          simp only [Option.none_bind]
          refine iff_of_false (by simp) ?_
          rintro ⟨_, _, m, c, hm, hc, _⟩
          injection hm with hnm
          subst hnm
          rw [hlk] at hc
          cases hc
        | some c =>
          simp only [Option.some_bind]
          by_cases hmm : specMismatch c.answer e.2 = true
          · rw [if_pos hmm]
            exact iff_of_true rfl ⟨hskip.1, hskip.2, n, c, rfl, hlk, hmm⟩
          · rw [if_neg hmm]
            refine iff_of_false (by simp) ?_
            rintro ⟨_, _, m, c', hm, hc', hmm'⟩
            injection hm with hnm
            subst hnm
            rw [hlk] at hc'
            injection hc' with hcc
            subst hcc
            exact hmm hmm'
  · intro dirL e hall
    unfold specErrEntry
    by_cases hskip : e.1 = "undefined" ∨ e.2 = ""
    · rw [if_pos hskip]
    · rw [if_neg hskip]
      cases hpy : pyInt e.1 with
      | error err => simp
      | ok n =>
        simp only [except_toOption_ok, Option.some_bind]
        cases hlk : clueLookup (dirL, n) with
        | none => simp
        | some c => simp [specMismatch_all_zero c.answer e.2 hall]

theorem C2_witness :
    validState ⟨[("2", "AXSTRIA"), ("5", "PANAM0")], [("1", "0RANCE")], none⟩ = true ∧
    findErrors ⟨[("2", "AXSTRIA"), ("5", "PANAM0")], [("1", "0RANCE")], none⟩ =
      .ok ((([("2", "AXSTRIA"), ("5", "PANAM0")] : List (String × String)).filterMap (specErrEntry "A")) ++
        (([("1", "0RANCE")] : List (String × String)).filterMap (specErrEntry "D"))) :=
  ⟨by decide, (C2_error_list_exact ⟨[("2", "AXSTRIA"), ("5", "PANAM0")], [("1", "0RANCE")], none⟩ (by decide)).1⟩

theorem str_data_append (a b : String) : (a ++ b).data = a.data ++ b.data := rfl

theorem errMsg_parts (dirL : String) (num : Int) (hint pat ans : String) :
    strContains (errMsg dirL num hint pat ans) hint ∧
    strContains (errMsg dirL num hint pat ans) (pretty pat) ∧
    strContains (errMsg dirL num hint pat ans) ans := by
  refine ⟨⟨("• (" ++ dirL ++ toString num ++ ") ").data,
      (" – typed “" ++ pretty pat ++ "” doesn’t fit. (internal: " ++ ans ++ ")").data, ?_⟩,
    ⟨("• (" ++ dirL ++ toString num ++ ") " ++ hint ++ " – typed “").data,
      ("” doesn’t fit. (internal: " ++ ans ++ ")").data, ?_⟩,
    ⟨("• (" ++ dirL ++ toString num ++ ") " ++ hint ++ " – typed “" ++ pretty pat ++
        "” doesn’t fit. (internal: ").data, (")" : String).data, ?_⟩⟩ <;>
  simp [errMsg, str_data_append]

theorem pretty_no_zero (pat : String) :
    (pretty pat).data.all (fun ch => ch ≠ '0') = true := by
  rw [List.all_eq_true]
  intro x hx
  rw [pretty] at hx
  simp only [List.mem_map] at hx
  obtain ⟨c, _, hc⟩ := hx
  by_cases h0 : c = '0'
  · subst hc; simp [h0]
  · subst hc; simp [h0]

theorem specErrEntry_some (dirL : String) (e : String × String) (msg : String)
    (h : specErrEntry dirL e = some msg) :
    ∃ n c, pyInt e.1 = .ok n ∧ clueLookup (dirL, n) = some c ∧
      specMismatch c.answer e.2 = true ∧ msg = errMsg dirL n c.hint e.2 c.answer := by
  unfold specErrEntry at h
  by_cases hskip : e.1 = "undefined" ∨ e.2 = ""
  · rw [if_pos hskip] at h; cases h
  · rw [if_neg hskip] at h
    cases hpy : pyInt e.1 with
    | error err => rw [hpy] at h; simp at h
    | ok n =>
      rw [hpy] at h
      simp only [except_toOption_ok, Option.some_bind] at h
      cases hlk : clueLookup (dirL, n) with
      | none => rw [hlk] at h; simp at h
      | some c =>
        rw [hlk] at h
        simp only [Option.some_bind] at h
        by_cases hmm : specMismatch c.answer e.2 = true
        · rw [if_pos hmm] at h
          injection h with hm
          exact ⟨n, c, rfl, hlk, hmm, hm.symm⟩
        · rw [if_neg hmm] at h; cases h

/-- C6 (amended): every message in the arbitration error list is the
erroneous clue's message, which contains the clue's hint and the
pattern rendered with `'_'` in place of every `'0'` (the rendered
pattern contains no `'0'`); however, contrary to the claim, the message
*also* contains the clue's stored answer, in its
`(internal: …)` suffix. -/
theorem C6_message_contents (st : PuzzleState) (h : validState st = true) (msgs : List String)
    (hok : findErrors st = .ok msgs) :
    ∀ msg ∈ msgs, ∃ dirL n c pat, clueLookup (dirL, n) = some c ∧
      msg = errMsg dirL n c.hint pat c.answer ∧
      strContains msg c.hint ∧ strContains msg (pretty pat) ∧
      (pretty pat).data.all (fun ch => ch ≠ '0') = true ∧
      strContains msg c.answer := by
  unfold validState at h
  rw [Bool.and_eq_true] at h
  unfold findErrors at hok
  rw [findErrorsDir_eq "A" st.across h.1] at hok
  simp only [except_ok_bind] at hok
  rw [findErrorsDir_eq "D" st.down h.2] at hok
  simp only [except_ok_bind] at hok
  injection hok with hok
  subst hok
  intro msg hmsg
  rcases List.mem_append.mp hmsg with hm | hm <;>
  · rw [List.mem_filterMap] at hm
    obtain ⟨e, _, he⟩ := hm
    obtain ⟨n, c, hpy, hlk, hmm, hmsgeq⟩ := specErrEntry_some _ e msg he
    subst hmsgeq
    obtain ⟨h1, h2, h3⟩ := errMsg_parts _ n c.hint e.2 c.answer
    exact ⟨_, n, c, e.2, hlk, rfl, h1, h2, pretty_no_zero e.2, h3⟩

theorem C6_witness :
    validState ⟨[("2", "AXSTRIA")], [], none⟩ = true ∧
    (∀ msg ∈ [errMsg "A" 2 "Country famous for Mozart and the Alps" "AXSTRIA" "AUSTRIA"],
      ∃ dirL n c pat, clueLookup (dirL, n) = some c ∧
        msg = errMsg dirL n c.hint pat c.answer ∧
        strContains msg c.hint ∧ strContains msg (pretty pat) ∧
        (pretty pat).data.all (fun ch => ch ≠ '0') = true ∧
        strContains msg c.answer) :=
  ⟨by decide,
   C6_message_contents ⟨[("2", "AXSTRIA")], [], none⟩ (by decide) _ (by decide)⟩

theorem C6_counterexample :
    findErrors ⟨[("2", "AXSTRIA")], [], none⟩ =
      .ok [errMsg "A" 2 "Country famous for Mozart and the Alps" "AXSTRIA" "AUSTRIA"] ∧
    strContains (errMsg "A" 2 "Country famous for Mozart and the Alps" "AXSTRIA" "AUSTRIA")
      "AUSTRIA" :=
  ⟨by decide,
   (errMsg_parts "A" 2 "Country famous for Mozart and the Alps" "AXSTRIA" "AUSTRIA").2.2⟩

theorem scanFocalDir_eq (dirL : String) :
    ∀ l : List (String × String), l.all (entryValid dirL) = true →
      scanFocalDir dirL l =
        .ok ((l.find? focCond).map (fun e => (dirL, (pyInt e.1).toOption.getD 0))) := by
  intro l
  induction l with
  | nil => intro _; rfl
  | cons e rest ih =>
    intro h
    rw [List.all_cons, Bool.and_eq_true] at h
    obtain ⟨he, hrest⟩ := h
    obtain ⟨numStr, pat⟩ := e
    by_cases hc : focCond (numStr, pat) = true
    · have hcond : (numStr != "undefined" && pat.data.contains '0') = true := hc
      rw [scanFocalDir, if_pos hcond]
      have hnu : numStr ≠ "undefined" := by
        rw [Bool.and_eq_true] at hcond
        simpa using hcond.1
      unfold entryValid at he
      rw [Bool.or_eq_true, decide_eq_true_iff] at he
      rcases he with he | he
      · exact absurd he hnu
      · cases hpy : pyInt numStr with
        | error err => rw [hpy] at he; simp at he
        | ok n =>
          simp only [except_ok_bind]
          rw [List.find?_cons_of_pos _ hc]
          simp [hpy]
    · have hcond : ¬((numStr != "undefined" && pat.data.contains '0') = true) := hc
      rw [scanFocalDir, if_neg hcond, List.find?_cons_of_neg _ hc]
      exact ih hrest

/-- C7 (amended): an explicit override (direction and clue number both
present in the clue context) is returned verbatim; otherwise the first
snapshot entry — across before down, *in the snapshot's own iteration
order within each direction*, not in ascending clue-number order — whose
pattern contains an empty cell is selected; if none does, the first
clue in table-declaration order, `("A", 2)`, is returned. -/
theorem C7_focal_selection :
    (∀ (st : PuzzleState) (ds lbl dl : String) (n : Int),
      st.clue_context = some ⟨some ds, some lbl⟩ →
      dirLetterE ds = .ok dl → pyInt lbl = .ok n → chooseFocal st = .ok (dl, n)) ∧
    (∀ st : PuzzleState, (st.clue_context.getD ⟨none, none⟩).clueLabel = none →
      validState st = true → chooseFocal st = .ok (specFocalIter st)) ∧
    (CROSSWORD_CLUES.head?.map clueKey = some ("A", 2)) := by
  refine ⟨?_, ?_, by decide⟩
  · intro st ds lbl dl n hctx hdl hn
    unfold chooseFocal
    rw [hctx]
    show (dirLetterE ds >>= fun dl' => pyInt lbl >>= fun n' => Except.ok (dl', n')) = .ok (dl, n)
    rw [hdl]
    simp only [except_ok_bind]
    rw [hn]
    simp only [except_ok_bind]
  · intro st hctx hvalid
    unfold validState at hvalid
    rw [Bool.and_eq_true] at hvalid
    unfold chooseFocal
    rw [hctx]
    show (scanFocalDir "A" st.across >>= fun ra =>
      match ra with
      | some r => Except.ok r
      | none =>
        scanFocalDir "D" st.down >>= fun rd =>
          match rd with
          | some r => Except.ok r
          | none =>
            match CROSSWORD_CLUES with
            | c :: _ => Except.ok (clueKey c)
            | [] => Except.error PyErr.indexError) = .ok (specFocalIter st)
    rw [scanFocalDir_eq "A" st.across hvalid.1]
    simp only [except_ok_bind]
    cases hA : st.across.find? focCond with
    | some e =>
      simp only [Option.map_some']
      unfold specFocalIter
      rw [hA]
      rfl
    | none =>
      simp only [Option.map_none']
      rw [scanFocalDir_eq "D" st.down hvalid.2]
      simp only [except_ok_bind]
      cases hD : st.down.find? focCond with
      | some e =>
        simp only [Option.map_some']
        unfold specFocalIter
        rw [hA, hD]
        rfl
      | none =>
        simp only [Option.map_none']
        unfold specFocalIter
        rw [hA, hD]
        rfl

theorem C7_witness :
    chooseFocal ⟨[], [], some ⟨some "down", some "7"⟩⟩ = .ok ("D", 7) ∧
    chooseFocal ⟨[("2", "A0STRIA")], [], none⟩ =
      .ok (specFocalIter ⟨[("2", "A0STRIA")], [], none⟩) :=
  ⟨C7_focal_selection.1 ⟨[], [], some ⟨some "down", some "7"⟩⟩ "down" "7" "D" 7 rfl
      (by decide) (by decide),
   C7_focal_selection.2.1 ⟨[("2", "A0STRIA")], [], none⟩ rfl (by decide)⟩

theorem C7_counterexample :
    chooseFocal ⟨[("5", "0AAAA"), ("2", "0AAAAAA")], [], none⟩ = .ok ("A", 5) ∧
    specFocalOrder ⟨[("5", "0AAAA"), ("2", "0AAAAAA")], [], none⟩ = some ("A", 2) ∧
    ¬((("A", 5) : String × Int) = ("A", 2)) :=
  ⟨by decide, by decide, by decide⟩

theorem specItemEntry_skip (dirL : String) (excl : String × Int) (numStr pat : String) (n : Int)
    (hu : numStr ≠ "undefined") (hpy : pyInt numStr = .ok n)
    (hskip : (dirL, n) = excl ∨ ¬(pat.data.contains '0' = true)) :
    specItemEntry dirL excl (numStr, pat) = none := by
  unfold specItemEntry
  dsimp only
  rw [if_neg hu, hpy]
  simp only [except_toOption_ok, Option.some_bind]
  rw [if_pos hskip]

theorem specItemEntry_keep (dirL : String) (excl : String × Int) (numStr pat : String)
    (n : Int) (c : Clue) (hu : numStr ≠ "undefined") (hpy : pyInt numStr = .ok n)
    (hskip : ¬((dirL, n) = excl ∨ ¬(pat.data.contains '0' = true)))
    (hlk : clueLookup (dirL, n) = some c) :
    specItemEntry dirL excl (numStr, pat) =
      some (-(lettersFilled pat : Int), dirL, n, pat, c.answer) := by
  unfold specItemEntry
  dsimp only
  rw [if_neg hu, hpy]
  simp only [except_toOption_ok, Option.some_bind]
  rw [if_neg hskip, hlk]
  rfl

theorem collectDir_eq (dirL : String) (excl : String × Int) :
    ∀ l : List (String × String), l.all (entryValid dirL) = true →
      collectDir dirL excl l = .ok (l.filterMap (specItemEntry dirL excl)) := by
  intro l
  induction l with
  | nil => intro _; rfl
  | cons e rest ih =>
    intro h
    rw [List.all_cons, Bool.and_eq_true] at h
    obtain ⟨he, hrest⟩ := h
    obtain ⟨numStr, pat⟩ := e
    by_cases hu : numStr = "undefined"
    · rw [collectDir, if_pos hu, ih hrest]
      simp [specItemEntry, hu]
    · rw [collectDir, if_neg hu]
      unfold entryValid at he
      rw [Bool.or_eq_true, decide_eq_true_iff] at he
      rcases he with he | he
      · exact absurd he hu
      · cases hpy : pyInt numStr with
        | error err => rw [hpy] at he; simp at he
        | ok n =>
          rw [hpy] at he
          have he' : (clueLookup (dirL, n)).isSome = true := by simpa using he
          rw [Option.isSome_iff_exists] at he'
          obtain ⟨c, hlk⟩ := he'
          simp only [except_ok_bind]
          by_cases hskip : (dirL, n) = excl ∨ ¬(pat.data.contains '0' = true)
          · rw [if_pos hskip, ih hrest]
            simp only [List.filterMap_cons]
            rw [specItemEntry_skip dirL excl numStr pat n hu hpy hskip]
          · rw [if_neg hskip]
            rw [clueLookupE_ok _ c hlk]
            simp only [except_ok_bind]
            rw [ih hrest]
            simp only [except_ok_bind, List.filterMap_cons]
            rw [specItemEntry_keep dirL excl numStr pat n c hu hpy hskip hlk]

theorem clueLookup_mem (k : String × Int) (c : Clue) (h : clueLookup k = some c) :
    k ∈ CROSSWORD_CLUES.map clueKey := by
  unfold clueLookup at h
  have h1 := List.mem_of_find?_eq_some h
  have h2 := List.find?_some h
  rw [decide_eq_true_iff] at h2
  exact h2 ▸ List.mem_map_of_mem clueKey h1

theorem specItemEntry_key (dirL : String) (excl : String × Int) (e : String × String) (t : ItemT)
    (h : specItemEntry dirL excl e = some t) :
    snapKeyFn dirL e = some (itemKey t) ∧
      t.1 = -(lettersFilled t.2.2.2.1 : Int) ∧ itemKey t ∈ CROSSWORD_CLUES.map clueKey := by
  unfold specItemEntry at h
  unfold snapKeyFn
  by_cases hu : e.1 = "undefined"
  · rw [if_pos hu] at h; cases h
  · rw [if_neg hu] at h
    cases hpy : pyInt e.1 with
    | error err => rw [hpy] at h; simp at h
    | ok n =>
      rw [hpy] at h
      simp only [except_toOption_ok, Option.some_bind] at h
      by_cases hskip : (dirL, n) = excl ∨ ¬(e.2.data.contains '0' = true)
      · rw [if_pos hskip] at h; cases h
      · rw [if_neg hskip] at h
        cases hlk : clueLookup (dirL, n) with
        | none => rw [hlk] at h; cases h
        | some c =>
          rw [hlk] at h
          simp only [Option.map_some'] at h
          injection h with h
          subst h
          refine ⟨?_, rfl, clueLookup_mem _ c hlk⟩
          rw [if_neg hu]
          rfl

theorem filterMap_key_sublist {α β γ : Type} (f : α → Option β) (g : α → Option γ) (key : β → γ)
    (hfg : ∀ a b, f a = some b → g a = some (key b)) :
    ∀ l : List α, List.Sublist ((l.filterMap f).map key) (l.filterMap g) := by
  intro l
  induction l with
  | nil => simp
  | cons a t ih =>
    rw [List.filterMap_cons, List.filterMap_cons]
    cases hf : f a with
    | none =>
      cases hg : g a with
      | none => exact ih
      | some c => exact ih.cons c
    | some b =>
      rw [hfg a b hf, List.map_cons]
      exact ih.cons₂ (key b)

theorem mem_specItems_props (st : PuzzleState) (excl : String × Int) (t : ItemT)
    (ht : t ∈ specItems st excl) :
    t.1 = -(lettersFilled t.2.2.2.1 : Int) ∧ itemKey t ∈ CROSSWORD_CLUES.map clueKey := by
  unfold specItems at ht
  rcases List.mem_append.mp ht with hm | hm <;>
  · rw [List.mem_filterMap] at hm
    obtain ⟨e, _, he⟩ := hm
    exact (specItemEntry_key _ excl e t he).2

theorem orderedInsert_congr {α : Type} (r s : α → α → Prop) [DecidableRel r] [DecidableRel s]
    (a : α) : ∀ l : List α, (∀ b ∈ l, (r a b ↔ s a b)) →
      l.orderedInsert r a = l.orderedInsert s a := by
  intro l
  induction l with
  | nil => intro _; rfl
  | cons b t ih =>
    intro h
    simp only [List.orderedInsert]
    by_cases hr : r a b
    · rw [if_pos hr, if_pos ((h b (by simp)).mp hr)]
    · rw [if_neg hr, if_neg (fun hs => hr ((h b (by simp)).mpr hs)),
        ih (fun x hx => h x (by simp [hx]))]

theorem insertionSort_congr {α : Type} (r s : α → α → Prop) [DecidableRel r] [DecidableRel s] :
    ∀ l : List α, (∀ a ∈ l, ∀ b ∈ l, (r a b ↔ s a b)) →
      l.insertionSort r = l.insertionSort s := by
  intro l
  induction l with
  | nil => intro _; rfl
  | cons a t ih =>
    intro h
    simp only [List.insertionSort]
    rw [ih (fun x hx y hy => h x (by simp [hx]) y (by simp [hy]))]
    apply orderedInsert_congr
    intro b hb
    have hbt : b ∈ t := (List.perm_insertionSort s t).subset hb
    exact h a (by simp) b (by simp [hbt])

theorem pyTupLE_refl (a : ItemT) : pyTupLE a a :=
  Or.inr ⟨rfl, Or.inr ⟨rfl, Or.inr ⟨rfl, Or.inr ⟨rfl, Or.inr rfl⟩⟩⟩⟩

theorem specLE_refl (a : ItemT) : specLE a a := Or.inr ⟨rfl, le_refl _⟩

theorem tblKey_order :
    ∀ k1 ∈ CROSSWORD_CLUES.map clueKey, ∀ k2 ∈ CROSSWORD_CLUES.map clueKey,
      ((pyStrLT k1.1 k2.1 ∨ (k1.1 = k2.1 ∧ k1.2 < k2.2)) ↔ tblIdx k1 < tblIdx k2) ∧
      (k1 = k2 ↔ tblIdx k1 = tblIdx k2) := by decide

theorem items_agreement (st : PuzzleState) (excl : String × Int)
    (hnd : (snapKeys "A" st.across ++ snapKeys "D" st.down).Nodup) :
    ∀ a ∈ specItems st excl, ∀ b ∈ specItems st excl, (pyTupLE a b ↔ specLE a b) := by
  have hsub : List.Sublist ((specItems st excl).map itemKey)
      (snapKeys "A" st.across ++ snapKeys "D" st.down) := by
    unfold specItems snapKeys
    rw [List.map_append]
    exact (filterMap_key_sublist _ _ itemKey
        (fun e t h => (specItemEntry_key "A" excl e t h).1) st.across).append
      (filterMap_key_sublist _ _ itemKey
        (fun e t h => (specItemEntry_key "D" excl e t h).1) st.down)
  have hkeysnd : ((specItems st excl).map itemKey).Nodup := hnd.sublist hsub
  have hinj := List.inj_on_of_nodup_map hkeysnd
  intro a ha b hb
  by_cases hab : a = b
  · subst hab
    exact iff_of_true (pyTupLE_refl a) (specLE_refl a)
  · have hk : itemKey a ≠ itemKey b := fun hkk => hab (hinj ha hb hkk)
    obtain ⟨ha1, hamem⟩ := mem_specItems_props st excl a ha
    obtain ⟨hb1, hbmem⟩ := mem_specItems_props st excl b hb
    obtain ⟨hord, hkeq⟩ := tblKey_order (itemKey a) hamem (itemKey b) hbmem
    have hidxne : tblIdx (itemKey a) ≠ tblIdx (itemKey b) := fun hi => hk (hkeq.mpr hi)
    unfold pyTupLE specLE
    constructor
    · rintro (h | ⟨h1, h2⟩)
      · left
        rw [ha1, hb1] at h
        omega
      · right
        refine ⟨by rw [ha1, hb1] at h1; omega, ?_⟩
        have hklt : pyStrLT (itemKey a).1 (itemKey b).1 ∨
            ((itemKey a).1 = (itemKey b).1 ∧ (itemKey a).2 < (itemKey b).2) := by
          rcases h2 with h | ⟨hd, h⟩
          · exact Or.inl h
          · rcases h with h | ⟨hn, _⟩
            · exact Or.inr ⟨hd, h⟩
            · exact absurd (show itemKey a = itemKey b by
                simp only [itemKey, hd, hn]) hk
        have := hord.mp hklt
        omega
    · rintro (h | ⟨h1, h2⟩)
      · left
        rw [ha1, hb1]
        omega
      · right
        refine ⟨by rw [ha1, hb1]; omega, ?_⟩
        have hlt : tblIdx (itemKey a) < tblIdx (itemKey b) := by omega
        rcases hord.mpr hlt with h | ⟨hd, h⟩
        · exact Or.inl h
        · exact Or.inr ⟨hd, Or.inl h⟩

/-- C8: for every valid, duplicate-free snapshot, `_interesting` returns
the first `k` renderings of exactly the candidate clues — those other
than the focal clue whose pattern contains at least one `'0'` cell and
that reference a known clue — ordered by descending count of non-`'0'`
characters with ties broken by the clue table's declaration order. -/
theorem C8_interest_ranking (st : PuzzleState) (excl : String × Int) (k : Nat)
    (hv : validState st = true)
    (hnd : (snapKeys "A" st.across ++ snapKeys "D" st.down).Nodup) :
    interesting st excl k =
      .ok ((((specItems st excl).insertionSort specLE).take k).map renderPick) ∧
    (∀ dirL e, (specItemEntry dirL excl e).isSome = true ↔
      (e.1 ≠ "undefined" ∧ ∃ n, pyInt e.1 = .ok n ∧ (dirL, n) ≠ excl ∧
        e.2.data.contains '0' = true ∧ (clueLookup (dirL, n)).isSome = true)) := by
  constructor
  · unfold interesting
    unfold validState at hv
    rw [Bool.and_eq_true] at hv
    rw [collectDir_eq "A" excl st.across hv.1]
    simp only [except_ok_bind]
    rw [collectDir_eq "D" excl st.down hv.2]
    simp only [except_ok_bind]
    rw [show st.across.filterMap (specItemEntry "A" excl) ++
        st.down.filterMap (specItemEntry "D" excl) = specItems st excl from rfl]
    rw [insertionSort_congr pyTupLE specLE _ (items_agreement st excl hnd)]
  · intro dirL e
    unfold specItemEntry
    by_cases hu : e.1 = "undefined"
    · rw [if_pos hu]
      refine iff_of_false (by simp) ?_
      rintro ⟨h1, _⟩
      exact h1 hu
    · rw [if_neg hu]
      cases hpy : pyInt e.1 with
      | error err =>
        simp only [except_toOption_error, Option.none_bind]
        refine iff_of_false (by simp) ?_
        rintro ⟨_, n, hn, _⟩
        cases hn
      | ok n =>
        simp only [except_toOption_ok, Option.some_bind]
        by_cases hskip : (dirL, n) = excl ∨ ¬(e.2.data.contains '0' = true)
        · rw [if_pos hskip]
          refine iff_of_false (by simp) ?_
          rintro ⟨_, m, hm, hne, hzero, _⟩
          injection hm with hm
          subst hm
          rcases hskip with hs | hs
          · exact hne hs
          · exact hs hzero
        · rw [if_neg hskip]
          push_neg at hskip
          cases hlk : clueLookup (dirL, n) with
          | none =>
            refine iff_of_false (by simp) ?_
            rintro ⟨_, m, hm, _, _, hsome⟩
            injection hm with hm
            subst hm
            rw [hlk] at hsome
            cases hsome
          | some c =>
            refine iff_of_true (by simp) ?_
            exact ⟨hu, n, rfl, hskip.1, hskip.2, by rw [hlk]; rfl⟩

theorem C8_witness :
    validState ⟨[("2", "AU0TRIA"), ("5", "PAN0MA")], [("1", "0RANCE")], none⟩ = true ∧
    interesting ⟨[("2", "AU0TRIA"), ("5", "PAN0MA")], [("1", "0RANCE")], none⟩ ("A", 2) 2 =
      .ok ((((specItems ⟨[("2", "AU0TRIA"), ("5", "PAN0MA")], [("1", "0RANCE")], none⟩
        ("A", 2)).insertionSort specLE).take 2).map renderPick) :=
  ⟨by decide,
   (C8_interest_ranking ⟨[("2", "AU0TRIA"), ("5", "PAN0MA")], [("1", "0RANCE")], none⟩
     ("A", 2) 2 (by decide) (by decide)).1⟩

theorem completedCond_extend (dirL : String) (c adds : List (String × Int))
    (e : String × String) (h : ∀ k ∈ adds, ¬(snapKeyFn dirL e = some k)) :
    completedCond dirL (c ++ adds) e = completedCond dirL c e := by
  unfold completedCond
  by_cases hskip : e.1 = "undefined" ∨ e.2 = "" ∨ e.2.data.contains '0' = true
  · rw [if_pos hskip, if_pos hskip]
  · rw [if_neg hskip, if_neg hskip]
    cases hpy : pyInt e.1 with
    | error err => rfl
    | ok n =>
      simp only [except_toOption_ok, Option.some_bind]
      cases hlk : clueLookup (dirL, n) with
      | none => rfl
      | some cl =>
        simp only [Option.some_bind]
        have hkey : ¬((dirL, n) ∈ adds) := by
          intro hmem
          refine h (dirL, n) hmem ?_
          unfold snapKeyFn
          rw [if_neg (fun hu => hskip (Or.inl hu)), hpy]
          rfl
        have : ((dirL, n) ∉ c ++ adds) ↔ ((dirL, n) ∉ c) := by
          rw [List.mem_append]
          tauto
        by_cases hc : e.2 = cl.answer ∧ (dirL, n) ∉ c
        · rw [if_pos ⟨hc.1, this.mpr hc.2⟩, if_pos hc]
        · have : ¬(e.2 = cl.answer ∧ (dirL, n) ∉ c ++ adds) := by
            intro hcc
            exact hc ⟨hcc.1, fun hm => hcc.2 (List.mem_append.mpr (Or.inl hm))⟩
          rw [if_neg this, if_neg hc]

theorem completedCond_skip (dirL : String) (completed : List (String × Int)) (numStr pat : String)
    (h : numStr = "undefined" ∨ pat = "" ∨ pat.data.contains '0' = true) :
    completedCond dirL completed (numStr, pat) = none := by
  unfold completedCond
  dsimp only
  rw [if_pos h]

theorem completedCond_eval (dirL : String) (completed : List (String × Int))
    (numStr pat : String) (n : Int) (c : Clue)
    (hskip : ¬(numStr = "undefined" ∨ pat = "" ∨ pat.data.contains '0' = true))
    (hpy : pyInt numStr = .ok n) (hlk : clueLookup (dirL, n) = some c) :
    completedCond dirL completed (numStr, pat) =
      if pat = c.answer ∧ (dirL, n) ∉ completed then some (dirL, n) else none := by
  unfold completedCond
  dsimp only
  rw [if_neg hskip, hpy]
  simp only [except_toOption_ok, Option.some_bind]
  rw [hlk]
  simp only [Option.some_bind]

theorem snapKeyFn_eval (dirL : String) (numStr pat : String) (n : Int)
    (hu : numStr ≠ "undefined") (hpy : pyInt numStr = .ok n) :
    snapKeyFn dirL (numStr, pat) = some (dirL, n) := by
  unfold snapKeyFn
  dsimp only
  rw [if_neg hu, hpy]
  rfl

theorem rcDir_filterMap (dirL : String) :
    ∀ (l : List (String × String)) (completed acc : List (String × Int)),
      l.all (entryValid dirL) = true → (snapKeys dirL l).Nodup →
      rcDir dirL l completed acc =
        .ok (completed ++ l.filterMap (completedCond dirL completed),
             acc ++ l.filterMap (completedCond dirL completed)) := by
  intro l
  induction l with
  | nil => intro completed acc _ _; simp [rcDir]
  | cons e rest ih =>
    intro completed acc h hnd
    rw [List.all_cons, Bool.and_eq_true] at h
    obtain ⟨he, hrest⟩ := h
    obtain ⟨numStr, pat⟩ := e
    by_cases hskip : numStr = "undefined" ∨ pat = "" ∨ pat.data.contains '0' = true
    · rw [rcDir, if_pos hskip]
      have hnd' : (snapKeys dirL rest).Nodup := by
        unfold snapKeys at hnd ⊢
        rw [List.filterMap_cons] at hnd
        cases hk : snapKeyFn dirL (numStr, pat) with
        | none => rw [hk] at hnd; exact hnd
        | some k => rw [hk] at hnd; exact hnd.of_cons
      rw [ih completed acc hrest hnd']
      rw [List.filterMap_cons, completedCond_skip dirL completed numStr pat hskip]
    · have hu : numStr ≠ "undefined" := fun hc => hskip (Or.inl hc)
      unfold entryValid at he
      rw [Bool.or_eq_true, decide_eq_true_iff] at he
      rcases he with he | he
      · exact absurd he hu
      · cases hpy : pyInt numStr with
        | error err => rw [hpy] at he; simp at he
        | ok n =>
          rw [hpy] at he
          have he' : (clueLookup (dirL, n)).isSome = true := by simpa using he
          rw [Option.isSome_iff_exists] at he'
          obtain ⟨c, hlk⟩ := he'
          rw [rcDir, if_neg hskip, hpy]
          simp only [except_ok_bind]
          rw [clueLookupE_ok _ c hlk]
          simp only [except_ok_bind]
          have hkhead : snapKeyFn dirL (numStr, pat) = some (dirL, n) :=
            snapKeyFn_eval dirL numStr pat n hu hpy
          unfold snapKeys at hnd
          rw [List.filterMap_cons, hkhead] at hnd
          rw [List.nodup_cons] at hnd
          obtain ⟨hnotin, hnd'⟩ := hnd
          by_cases hcnd : pat = c.answer ∧ (dirL, n) ∉ completed
          · rw [if_pos hcnd]
            rw [ih (completed ++ [(dirL, n)]) (acc ++ [(dirL, n)]) hrest hnd']
            have hcongr : rest.filterMap (completedCond dirL (completed ++ [(dirL, n)])) =
                rest.filterMap (completedCond dirL completed) := by
              apply List.filterMap_congr
              intro e' he'
              apply completedCond_extend dirL completed [(dirL, n)] e'
              intro k hk
              rw [List.mem_singleton] at hk
              subst hk
              intro hkey
              exact hnotin (List.mem_filterMap.mpr ⟨e', he', hkey⟩)
            rw [hcongr]
            have hchead : completedCond dirL completed (numStr, pat) = some (dirL, n) := by
              rw [completedCond_eval dirL completed numStr pat n c hskip hpy hlk, if_pos hcnd]
            rw [List.filterMap_cons, hchead]
            simp
          · rw [if_neg hcnd]
            rw [ih completed acc hrest hnd']
            have hchead : completedCond dirL completed (numStr, pat) = none := by
              rw [completedCond_eval dirL completed numStr pat n c hskip hpy hlk, if_neg hcnd]
            rw [List.filterMap_cons, hchead]

theorem completedCond_dir (dirL : String) (comp : List (String × Int)) (e : String × String)
    (kk : String × Int) (h : completedCond dirL comp e = some kk) : kk.1 = dirL := by
  unfold completedCond at h
  by_cases hskip : e.1 = "undefined" ∨ e.2 = "" ∨ e.2.data.contains '0' = true
  · rw [if_pos hskip] at h; cases h
  · rw [if_neg hskip] at h
    cases hpy : pyInt e.1 with
    | error err => rw [hpy] at h; simp at h
    | ok n =>
      rw [hpy] at h
      simp only [except_toOption_ok, Option.some_bind] at h
      cases hlk : clueLookup (dirL, n) with
      | none => rw [hlk] at h; simp at h
      | some c =>
        rw [hlk] at h
        simp only [Option.some_bind] at h
        by_cases hcnd : e.2 = c.answer ∧ (dirL, n) ∉ comp
        · rw [if_pos hcnd] at h
          injection h with h
          rw [← h]
        · rw [if_neg hcnd] at h; cases h

theorem recentlyCompleted_eq (completed : List (String × Int)) (st : PuzzleState)
    (hv : validState st = true)
    (hnd : (snapKeys "A" st.across ++ snapKeys "D" st.down).Nodup) :
    recentlyCompleted completed st =
      .ok (completed ++ specRecent completed st, specRecent completed st) := by
  unfold validState at hv
  rw [Bool.and_eq_true] at hv
  have hndA : (snapKeys "A" st.across).Nodup := hnd.of_append_left
  have hndD : (snapKeys "D" st.down).Nodup := hnd.of_append_right
  unfold recentlyCompleted
  rw [rcDir_filterMap "A" st.across completed [] hv.1 hndA]
  simp only [except_ok_bind]
  rw [rcDir_filterMap "D" st.down _ _ hv.2 hndD]
  have hcongr : st.down.filterMap (completedCond "D"
      (completed ++ st.across.filterMap (completedCond "A" completed))) =
      st.down.filterMap (completedCond "D" completed) := by
    apply List.filterMap_congr
    intro e' _
    apply completedCond_extend "D" completed _ e'
    intro k hk hkey
    have hka : k.1 = "A" := by
      rw [List.mem_filterMap] at hk
      obtain ⟨e'', _, he''⟩ := hk
      exact completedCond_dir "A" completed e'' k he''
    have hkd : k.1 = "D" := by
      unfold snapKeyFn at hkey
      by_cases hu : e'.1 = "undefined"
      · rw [if_pos hu] at hkey; cases hkey
      · rw [if_neg hu] at hkey
        cases hpy : pyInt e'.1 with
        | error err => rw [hpy] at hkey; cases hkey
        | ok n =>
          rw [hpy] at hkey
          simp only [except_toOption_ok, Option.map_some'] at hkey
          injection hkey with hkey
          rw [← hkey]
    rw [hka] at hkd
    exact absurd hkd (by decide)
  rw [hcongr]
  unfold specRecent
  simp

theorem completedCond_some_iff (dirL : String) (comp : List (String × Int))
    (e : String × String) (kk : String × Int) :
    completedCond dirL comp e = some kk ↔
      (e.1 ≠ "undefined" ∧ e.2 ≠ "" ∧ e.2.data.contains '0' = false ∧
        ∃ n c, pyInt e.1 = .ok n ∧ kk = (dirL, n) ∧ clueLookup (dirL, n) = some c ∧
          e.2 = c.answer ∧ (dirL, n) ∉ comp) := by
  unfold completedCond
  by_cases hskip : e.1 = "undefined" ∨ e.2 = "" ∨ e.2.data.contains '0' = true
  · rw [if_pos hskip]
    refine iff_of_false (by simp) ?_
    rintro ⟨h1, h2, h3, _⟩
    rcases hskip with hc | hc | hc
    · exact h1 hc
    · exact h2 hc
    · rw [hc] at h3; cases h3
  · rw [if_neg hskip]
    push_neg at hskip
    obtain ⟨hu, hne, hnc⟩ := hskip
    have hnc' : e.2.data.contains '0' = false := by
      cases hcc : e.2.data.contains '0'
      · rfl
      · exact absurd hcc hnc
    cases hpy : pyInt e.1 with
    | error err =>
      simp only [except_toOption_error, Option.none_bind]
      refine iff_of_false (by simp) ?_
      rintro ⟨_, _, _, n, c, hn, _⟩
      cases hn
    | ok n =>
      simp only [except_toOption_ok, Option.some_bind]
      cases hlk : clueLookup (dirL, n) with
      | none =>
        simp only [Option.none_bind]
        refine iff_of_false (by simp) ?_
        rintro ⟨_, _, _, m, c, hm, hkk, hc, _⟩
        injection hm with hm
        subst hm
        rw [hlk] at hc
        cases hc
      | some c =>
        simp only [Option.some_bind]
        by_cases hcnd : e.2 = c.answer ∧ (dirL, n) ∉ comp
        · rw [if_pos hcnd]
          constructor
          · intro hh
            injection hh with hh
            subst hh
            exact ⟨hu, hne, hnc', n, c, rfl, rfl, hlk, hcnd.1, hcnd.2⟩
          · rintro ⟨_, _, _, m, c', hm, hkk, _, _⟩
            injection hm with hm
            subst hm
            rw [hkk]
        · rw [if_neg hcnd]
          refine iff_of_false (by simp) ?_
          rintro ⟨_, _, _, m, c', hm, hkk, hc', hans, hnotin⟩
          injection hm with hm
          subst hm
          rw [hlk] at hc'
          injection hc' with hc'
          subst hc'
          exact hcnd ⟨hans, hnotin⟩

theorem rcDir_shape (dirL : String) :
    ∀ (l : List (String × String)) (completed acc res :_ ),
      rcDir dirL l completed acc = .ok res →
      ∃ new, res.1 = completed ++ new ∧ res.2 = acc ++ new ∧ new.Nodup ∧
        ∀ k ∈ new, k ∉ completed := by
  intro l
  induction l with
  | nil =>
    intro completed acc res h
    rw [rcDir] at h
    injection h with h
    subst h
    exact ⟨[], by simp, by simp, List.nodup_nil, by simp⟩
  | cons e rest ih =>
    intro completed acc res h
    obtain ⟨numStr, pat⟩ := e
    rw [rcDir] at h
    by_cases hskip : numStr = "undefined" ∨ pat = "" ∨ pat.data.contains '0' = true
    · rw [if_pos hskip] at h
      exact ih completed acc res h
    · rw [if_neg hskip] at h
      cases hpy : pyInt numStr with
      | error err =>
        rw [hpy] at h
        simp only [except_error_bind] at h
        cases h
      | ok n =>
        rw [hpy] at h
        simp only [except_ok_bind] at h
        cases hlk : clueLookup (dirL, n) with
        | none =>
          rw [clueLookupE_err _ hlk] at h
          simp only [except_error_bind] at h
          cases h
        | some c =>
          rw [clueLookupE_ok _ c hlk] at h
          simp only [except_ok_bind] at h
          by_cases hcnd : pat = c.answer ∧ (dirL, n) ∉ completed
          · rw [if_pos hcnd] at h
            obtain ⟨new, h1, h2, hnodup, hnotin⟩ :=
              ih (completed ++ [(dirL, n)]) (acc ++ [(dirL, n)]) res h
            refine ⟨(dirL, n) :: new, ?_, ?_, ?_, ?_⟩
            · rw [h1]; simp
            · rw [h2]; simp
            · rw [List.nodup_cons]
              refine ⟨fun hmem => ?_, hnodup⟩
              exact hnotin _ hmem (List.mem_append.mpr (Or.inr (by simp)))
            · intro k hk
              rw [List.mem_cons] at hk
              rcases hk with hk | hk
              · subst hk; exact hcnd.2
              · intro hkc
                exact hnotin k hk (List.mem_append.mpr (Or.inl hkc))
          · rw [if_neg hcnd] at h
            exact ih completed acc res h

theorem recentlyCompleted_shape (completed : List (String × Int)) (st : PuzzleState)
    (res : List (String × Int) × List (String × Int))
    (h : recentlyCompleted completed st = .ok res) :
    ∃ new, res.1 = completed ++ new ∧ res.2 = new ∧ new.Nodup ∧ ∀ k ∈ new, k ∉ completed := by
  unfold recentlyCompleted at h
  cases har : rcDir "A" st.across completed [] with
  | error e => rw [har] at h; simp only [except_error_bind] at h; cases h
  | ok ar =>
    rw [har] at h
    simp only [except_ok_bind] at h
    obtain ⟨n1, ha1, ha2, hnd1, hni1⟩ := rcDir_shape "A" st.across completed [] ar har
    obtain ⟨n2, hb1, hb2, hnd2, hni2⟩ := rcDir_shape "D" st.down ar.1 ar.2 res h
    refine ⟨n1 ++ n2, ?_, ?_, ?_, ?_⟩
    · rw [hb1, ha1]; simp
    · rw [hb2, ha2]; simp
    · rw [List.nodup_append]
      refine ⟨hnd1, hnd2, ?_⟩
      intro k hk1 hk2
      refine hni2 k hk2 ?_
      rw [ha1]
      exact List.mem_append.mpr (Or.inr hk1)
    · intro k hk
      rcases List.mem_append.mp hk with hk | hk
      · exact hni1 k hk
      · intro hkc
        refine hni2 k hk ?_
        rw [ha1]
        exact List.mem_append.mpr (Or.inl hkc)

theorem runDetection_shape :
    ∀ (snaps : List PuzzleState) (completed : List (String × Int))
      (reports : List (List (String × Int))) (cf : List (String × Int)),
      runDetection completed snaps = .ok (reports, cf) →
      (∃ ext, cf = completed ++ ext) ∧ (∀ r ∈ reports, r.Nodup) ∧
      (∀ r ∈ reports, ∀ k ∈ r, k ∉ completed) ∧
      reports.Pairwise (fun r1 r2 => ∀ k ∈ r1, k ∉ r2) := by
  intro snaps
  induction snaps with
  | nil =>
    intro completed reports cf h
    rw [runDetection] at h
    injection h with h
    rw [Prod.mk.injEq] at h
    obtain ⟨h1, h2⟩ := h
    subst h1
    subst h2
    exact ⟨⟨[], by simp⟩, by simp, by simp, by simp⟩
  | cons st rest ih =>
    intro completed reports cf h
    rw [runDetection] at h
    cases hcr : recentlyCompleted completed st with
    | error e => rw [hcr] at h; simp only [except_error_bind] at h; cases h
    | ok cr =>
      rw [hcr] at h
      simp only [except_ok_bind] at h
      cases hrs : runDetection cr.1 rest with
      | error e => rw [hrs] at h; simp only [except_error_bind] at h; cases h
      | ok rs =>
        rw [hrs] at h
        simp only [except_ok_bind] at h
        injection h with h
        rw [Prod.mk.injEq] at h
        obtain ⟨h1, h2⟩ := h
        subst h1
        subst h2
        obtain ⟨new, hc1, hc2, hnd, hni⟩ := recentlyCompleted_shape completed st cr hcr
        obtain ⟨⟨ext, hext⟩, hnds, hnotins, hpw⟩ := ih cr.1 rs.1 rs.2 (by rw [hrs])
        refine ⟨⟨new ++ ext, ?_⟩, ?_, ?_, ?_⟩
        · rw [hext, hc1]; simp
        · intro r hr
          rcases List.mem_cons.mp hr with hr | hr
          · subst hr; rw [hc2]; exact hnd
          · exact hnds r hr
        · intro r hr k hk
          rcases List.mem_cons.mp hr with hr | hr
          · subst hr; rw [hc2] at hk; exact hni k hk
          · intro hkc
            refine hnotins r hr k hk ?_
            rw [hc1]
            exact List.mem_append.mpr (Or.inl hkc)
        · rw [List.pairwise_cons]
          refine ⟨?_, hpw⟩
          intro r hr k hk
          rw [hc2] at hk
          intro hkr
          refine hnotins r hr k hkr ?_
          rw [hc1]
          exact List.mem_append.mpr (Or.inr hk)

/-- C3: for every valid, duplicate-free snapshot, one turn's
newly-completed scan reports exactly the keys of the entries whose
pattern has no empty cell, is non-empty, equals the stored answer and is
not yet in the completed set; the completed set becomes its old value
plus the reported keys (so it only ever grows); and across any sequence
of turns every key is reported at most once: per-turn reports have no
duplicates and are pairwise disjoint, and no reported key was already
completed at the start. -/
theorem C3_completed_reporting (completed : List (String × Int)) (st : PuzzleState)
    (hv : validState st = true)
    (hnd : (snapKeys "A" st.across ++ snapKeys "D" st.down).Nodup) :
    recentlyCompleted completed st =
      .ok (completed ++ specRecent completed st, specRecent completed st) ∧
    (∀ dirL comp (e : String × String) kk, completedCond dirL comp e = some kk ↔
      (e.1 ≠ "undefined" ∧ e.2 ≠ "" ∧ e.2.data.contains '0' = false ∧
        ∃ n c, pyInt e.1 = .ok n ∧ kk = (dirL, n) ∧ clueLookup (dirL, n) = some c ∧
          e.2 = c.answer ∧ (dirL, n) ∉ comp)) ∧
    (∀ snaps reports cf, runDetection completed snaps = .ok (reports, cf) →
      (∃ ext, cf = completed ++ ext) ∧ (∀ r ∈ reports, r.Nodup) ∧
      (∀ r ∈ reports, ∀ k ∈ r, k ∉ completed) ∧
      reports.Pairwise (fun r1 r2 => ∀ k ∈ r1, k ∉ r2)) :=
  ⟨recentlyCompleted_eq completed st hv hnd,
   fun dirL comp e kk => completedCond_some_iff dirL comp e kk,
   fun snaps reports cf h => runDetection_shape snaps completed reports cf h⟩

theorem C3_witness :
    validState ⟨[("2", "AUSTRIA"), ("5", "PANAM0")], [("1", "FRANCE")], none⟩ = true ∧
    recentlyCompleted [("D", 1)] ⟨[("2", "AUSTRIA"), ("5", "PANAM0")], [("1", "FRANCE")], none⟩ =
      .ok ([("D", 1)] ++ specRecent [("D", 1)]
          ⟨[("2", "AUSTRIA"), ("5", "PANAM0")], [("1", "FRANCE")], none⟩,
        specRecent [("D", 1)] ⟨[("2", "AUSTRIA"), ("5", "PANAM0")], [("1", "FRANCE")], none⟩) :=
  ⟨by decide,
   (C3_completed_reporting [("D", 1)]
     ⟨[("2", "AUSTRIA"), ("5", "PANAM0")], [("1", "FRANCE")], none⟩
     (by decide) (by decide)).1⟩

@[simp] theorem except_pure_bind {ε α β : Type} (a : α) (f : α → Except ε β) :
    ((pure a : Except ε α) >>= f) = f a := rfl

theorem processTurn_genFail (c : List (String × Int)) (snap : Option PuzzleState) (i : Int)
    (e : PyErr) : ∃ e', processTurn c snap i (.error e) = .error e' := by
  cases snap with
  | none => exact ⟨e, rfl⟩
  | some st =>
    cases hrc : recentlyCompleted c st with
    | error e1 =>
      refine ⟨e1, ?_⟩
      simp only [processTurn, hrc, except_error_bind]
    | ok cr =>
      cases hsys : createSystemPrompt st i 20 cr.2 with
      | ok s =>
        refine ⟨e, ?_⟩
        simp only [processTurn, hrc, except_ok_bind, hsys, except_pure_bind, except_error_bind]
      | error e2 =>
        cases e2 with
        | keyError =>
          refine ⟨e, ?_⟩
          simp only [processTurn, hrc, except_ok_bind, hsys, except_pure_bind, except_error_bind]
        | valueError =>
          refine ⟨.valueError, ?_⟩
          simp only [processTurn, hrc, except_ok_bind, hsys, except_error_bind]
        | indexError =>
          refine ⟨.indexError, ?_⟩
          simp only [processTurn, hrc, except_ok_bind, hsys, except_error_bind]
        | other msg =>
          refine ⟨.other msg, ?_⟩
          simp only [processTurn, hrc, except_ok_bind, hsys, except_error_bind]

/-- C4 (amended): when the external text generator call fails, nothing
is spoken and the turn never completes, but instead of returning to
LISTENING the exception propagates out of the turn: the loop ends as
`crashed` with no outcome, the remaining inputs are never processed, and
the process performs teardown and exits. -/
theorem C4_generator_failure :
    (∀ (c : List (String × Int)) (snap : Option PuzzleState) (i : Int) (e : PyErr)
      (out : TurnOutcome), processTurn c snap i (.error e) ≠ .ok out) ∧
    (∀ (c : List (String × Int)) (u : String) (snap : Option PuzzleState) (i : Int)
      (e : PyErr) (rest : List TurnInput), pyQuit u = false →
      ∃ e', runLoop c (⟨u, snap, i, .error e⟩ :: rest) = ([], .crashed e')) := by
  constructor
  · intro c snap i e out hok
    obtain ⟨e', he'⟩ := processTurn_genFail c snap i e
    rw [hok] at he'
    cases he'
  · intro c u snap i e rest hq
    obtain ⟨e', he'⟩ := processTurn_genFail c snap i e
    refine ⟨e', ?_⟩
    simp only [runLoop, hq, Bool.false_eq_true, if_false, he']

theorem C4_witness :
    processTurn [] (some ⟨[], [], none⟩) 0 (.error .valueError) ≠
      .ok ⟨[], [], PLACEHOLDER, some "x"⟩ ∧
    ∃ e', runLoop [] [⟨"go on", none, 0, .error .valueError⟩] = ([], .crashed e') :=
  ⟨C4_generator_failure.1 [] (some ⟨[], [], none⟩) 0 .valueError ⟨[], [], PLACEHOLDER, some "x"⟩,
   C4_generator_failure.2 [] "go on" none 0 .valueError [] (by decide)⟩

theorem C4_counterexample :
    processTurn [] (some ⟨[], [], none⟩) 0 (.error (.other "APIError")) =
      .error (.other "APIError") ∧
    runLoop [] [⟨"hi", some ⟨[], [], none⟩, 0, .error (.other "APIError")⟩,
      ⟨"next", some ⟨[], [], none⟩, 0, .ok "fine"⟩] = ([], .crashed (.other "APIError")) :=
  ⟨by decide, by decide⟩

/-- C5 (amended): an unknown (direction, number) reference is not
skipped.  If it reaches the newly-completed check (no empty cell in its
pattern), the `KeyError` propagates, aborting the turn loop, and the
process exits after teardown; if it is reached only during prompt
building, the `KeyError` is caught but the entire arbitration result is
replaced by the placeholder prompt, so no other entry is processed
either. -/
theorem C5_unknown_reference :
    (∀ (c : List (String × Int)) (st : PuzzleState) (i : Int) (g : Except PyErr String)
      (e : PyErr), recentlyCompleted c st = .error e →
      processTurn c (some st) i g = .error e) ∧
    (∀ (c : List (String × Int)) (st : PuzzleState) (i : Int) (text : String)
      (cr : List (String × Int) × List (String × Int)),
      recentlyCompleted c st = .ok cr →
      createSystemPrompt st i 20 cr.2 = .error .keyError →
      processTurn c (some st) i (.ok text) = .ok ⟨cr.2, cr.1, PLACEHOLDER, some text⟩) ∧
    (∀ (c : List (String × Int)) (u : String) (st : PuzzleState) (i : Int)
      (g : Except PyErr String) (e : PyErr) (rest : List TurnInput),
      pyQuit u = false → recentlyCompleted c st = .error e →
      runLoop c (⟨u, some st, i, g⟩ :: rest) = ([], .crashed e)) := by
  refine ⟨?_, ?_, ?_⟩
  · intro c st i g e hrc
    simp only [processTurn, hrc, except_error_bind]
  · intro c st i text cr hrc hsys
    simp only [processTurn, hrc, except_ok_bind, hsys, except_pure_bind]
  · intro c u st i g e rest hq hrc
    have h1 : processTurn c (some st) i g = .error e := by
      simp only [processTurn, hrc, except_error_bind]
    simp only [runLoop, hq, Bool.false_eq_true, if_false, h1]

theorem C5_witness :
    processTurn [] (some ⟨[("99", "XYZ")], [], none⟩) 3 (.ok "t") = .error .keyError ∧
    processTurn [] (some ⟨[("99", "0YZ")], [], none⟩) 0 (.ok "t") =
      .ok ⟨[], [], PLACEHOLDER, some "t"⟩ :=
  ⟨C5_unknown_reference.1 [] ⟨[("99", "XYZ")], [], none⟩ 3 (.ok "t") .keyError (by decide),
   C5_unknown_reference.2.1 [] ⟨[("99", "0YZ")], [], none⟩ 0 "t" ([], []) (by decide) (by decide)⟩

theorem C5_counterexample :
    recentlyCompleted [] ⟨[("99", "XYZ")], [], none⟩ = .error .keyError ∧
    runLoop [] [⟨"hello", some ⟨[("99", "XYZ")], [], none⟩, 0, .ok "reply"⟩] =
      ([], .crashed .keyError) ∧
    processTurn [] (some ⟨[("99", "0YZ"), ("2", "AXSTRIA")], [], none⟩) 0 (.ok "hi") =
      .ok ⟨[], [], PLACEHOLDER, some "hi"⟩ :=
  ⟨by decide, by decide, by decide⟩

theorem roundHalfEven_err (q : ℚ) : |(roundHalfEven q : ℚ) - q| ≤ 1/2 := by
  unfold roundHalfEven
  have h1 : (⌊q⌋ : ℚ) ≤ q := Int.floor_le q
  have h2 : q < ⌊q⌋ + 1 := Int.lt_floor_add_one q
  by_cases hc1 : q - ⌊q⌋ < 1/2
  · rw [if_pos hc1, abs_le]
    constructor <;> linarith
  · rw [if_neg hc1]
    by_cases hc2 : 1/2 < q - ⌊q⌋
    · rw [if_pos hc2]
      push_cast
      rw [abs_le]
      constructor <;> linarith
    · rw [if_neg hc2]
      have heq : q - ⌊q⌋ = 1/2 := le_antisymm (not_lt.mp hc2) (not_lt.mp hc1)
      by_cases hp : (⌊q⌋ % 2 = 0)
      · rw [if_pos hp, abs_le]
        constructor <;> linarith
      · rw [if_neg hp]
        push_cast
        rw [abs_le]
        constructor <;> linarith

theorem round2_err (q : ℚ) : |round2 q - q| ≤ 1/200 := by
  unfold round2
  have h := roundHalfEven_err (100 * q)
  have heq : (roundHalfEven (100 * q) : ℚ)/100 - q =
      ((roundHalfEven (100 * q) : ℚ) - 100 * q)/100 := by
    ring
  rw [heq, abs_div]
  rw [show |(100 : ℚ)| = 100 from by norm_num]
  linarith

theorem sumDur_append (l1 l2 : List (String × ℚ)) :
    sumDur (l1 ++ l2) = sumDur l1 + sumDur l2 := by
  simp [sumDur]

theorem runTrace_B : ∀ (es : List DetEvent) (s : DetState) (e : String),
    s.currentEmotion = some e →
    ∃ (k : ℕ) (e' : String),
      (runTrace s es).1.currentEmotion = some e' ∧
      (runTrace s es).2.length + (runTrace s es).1.emoSpans.length = s.emoSpans.length + k ∧
      |(sumDur (runTrace s es).2 + sumDur (runTrace s es).1.emoSpans -
        (runTrace s es).1.spanStart) - (sumDur s.emoSpans - s.spanStart)| ≤ (k : ℚ)/200 := by
  intro es
  induction es with
  | nil =>
    intro s e hs
    exact ⟨0, e, hs, by simp [runTrace], by simp [runTrace, sumDur]⟩
  | cons ev rest ih =>
    intro s e hs
    cases ev with
    | sample t l =>
      have hrun : runTrace s (.sample t l :: rest) = runTrace (stepSample s t l) rest := rfl
      by_cases hlbl : some l ≠ s.currentEmotion
      · have hstep : stepSample s t l =
            ⟨some l, t, s.emoSpans ++ [(e, round2 (t - s.spanStart))]⟩ := by
          unfold stepSample
          rw [if_pos hlbl, hs]
        obtain ⟨k, e', he', hlen, herr⟩ := ih (stepSample s t l) l (by rw [hstep])
        rw [hstep] at he' hlen herr
        refine ⟨k + 1, e', by rw [hrun, hstep]; exact he', ?_, ?_⟩
        · rw [hrun, hstep]
          dsimp only at hlen
          simp only [List.length_append, List.length_cons, List.length_nil] at hlen ⊢
          omega
        · rw [hrun, hstep]
          dsimp only at herr
          rw [sumDur_append] at herr
          have hsd : sumDur [(e, round2 (t - s.spanStart))] = round2 (t - s.spanStart) := by
            simp [sumDur]
          rw [hsd] at herr
          have hr2 := round2_err (t - s.spanStart)
          rw [abs_le] at herr hr2 ⊢
          push_cast
          constructor
          · linarith [herr.1, hr2.1]
          · linarith [herr.2, hr2.2]
      · have hstep : stepSample s t l = s := by
          unfold stepSample
          rw [if_neg hlbl]
        obtain ⟨k, e', he', hlen, herr⟩ := ih (stepSample s t l) e (by rw [hstep]; exact hs)
        rw [hstep] at he' hlen herr
        exact ⟨k, e', by rw [hrun, hstep]; exact he', by rw [hrun, hstep]; exact hlen,
          by rw [hrun, hstep]; exact herr⟩
    | drain t =>
      have hd : drainStep s t = (⟨some e, t, []⟩,
          s.emoSpans ++ [(e, round2 (t - s.spanStart))]) := by
        unfold drainStep
        rw [hs]
      have hrun : runTrace s (.drain t :: rest) =
          ((runTrace (⟨some e, t, []⟩ : DetState) rest).1,
            (s.emoSpans ++ [(e, round2 (t - s.spanStart))]) ++
              (runTrace (⟨some e, t, []⟩ : DetState) rest).2) := by
        show (let sd := drainStep s t
              let r := runTrace sd.1 rest
              (r.1, sd.2 ++ r.2)) = _
        rw [hd]
      obtain ⟨k, e', he', hlen, herr⟩ := ih ⟨some e, t, []⟩ e rfl
      refine ⟨k + 1, e', by rw [hrun]; exact he', ?_, ?_⟩
      · rw [hrun]
        dsimp only at hlen
        simp only [List.length_append, List.length_cons, List.length_nil] at hlen ⊢
        omega
      · rw [hrun]
        dsimp only at herr
        have h0 : sumDur ([] : List (String × ℚ)) = 0 := by simp [sumDur]
        rw [h0] at herr
        rw [sumDur_append, sumDur_append]
        have hsd : sumDur [(e, round2 (t - s.spanStart))] = round2 (t - s.spanStart) := by
          simp [sumDur]
        rw [hsd]
        have hr2 := round2_err (t - s.spanStart)
        rw [abs_le] at herr hr2 ⊢
        push_cast
        constructor
        · linarith [herr.1, hr2.1]
        · linarith [herr.2, hr2.2]

theorem runTrace_append : ∀ (l1 l2 : List DetEvent) (s : DetState),
    runTrace s (l1 ++ l2) =
      ((runTrace (runTrace s l1).1 l2).1,
        (runTrace s l1).2 ++ (runTrace (runTrace s l1).1 l2).2) := by
  intro l1
  induction l1 with
  | nil => intro l2 s; simp [runTrace]
  | cons ev rest ih =>
    intro l2 s
    cases ev with
    | sample t l =>
      show runTrace (stepSample s t l) (rest ++ l2) = _
      rw [ih l2 (stepSample s t l)]
      rfl
    | drain t =>
      show ((runTrace (drainStep s t).1 (rest ++ l2)).1,
        (drainStep s t).2 ++ (runTrace (drainStep s t).1 (rest ++ l2)).2) = _
      rw [ih l2 (drainStep s t).1]
      show (_, (drainStep s t).2 ++ ((runTrace (drainStep s t).1 rest).2 ++ _)) = _
      rw [← List.append_assoc]
      rfl

theorem stepSample_first (t0 t : ℚ) (l : String) :
    stepSample (initDet t0) t l = ⟨some l, t, []⟩ := by
  unfold stepSample initDet
  rw [if_pos (by simp)]

/-- C1 (amended): over any trace that starts sampling at `t0`, keeps
sampling at the fixed period `p`, and ends with a drain at time `T`, the
sum of all durations returned across the repeated
`get_summary_and_reset` calls equals the elapsed wall-clock time `T - t0`
within one sampling period *plus 0.005 s for each returned span record*
(each recorded duration is rounded to two decimals, and these rounding
errors accumulate); each drain closes the open span as of the call time
and immediately reopens a span for the same label starting then, with an
emptied buffer; and two consecutive drains account exactly the rounded
time between the two calls, never re-counting the span drained first. -/
theorem C1_drain_accounting :
    (∀ (p t0 T : ℚ) (es : List DetEvent), validTrace p t0 T es →
      |sumDur (runTrace (initDet t0) es).2 - (T - t0)| ≤
        p + ((runTrace (initDet t0) es).2.length : ℚ) / 200) ∧
    (∀ (s : DetState) (t : ℚ) (e : String), s.currentEmotion = some e →
      drainStep s t = (⟨some e, t, []⟩, s.emoSpans ++ [(e, round2 (t - s.spanStart))])) ∧
    (∀ (s : DetState) (t1 t2 : ℚ) (e : String), s.currentEmotion = some e →
      (drainStep (drainStep s t1).1 t2).2 = [(e, round2 (t2 - t1))]) := by
  refine ⟨?_, ?_, ?_⟩
  · intro p t0 T es hv
    obtain ⟨hp, hhead, hchain, hst, hT, hlast⟩ := hv
    cases es with
    | nil => simp [headSampleAt] at hhead
    | cons ev rest =>
      cases ev with
      | drain t => simp [headSampleAt] at hhead
      | sample t l0 =>
        have ht : t = t0 := by
          have := hhead
          unfold headSampleAt at this
          exact of_decide_eq_true this
        subst ht
        have hne : (DetEvent.sample t l0 :: rest) ≠ [] := by simp
        have hsplit : (DetEvent.sample t l0 :: rest).dropLast ++ [DetEvent.drain T] =
            DetEvent.sample t l0 :: rest :=
          List.dropLast_append_getLast? _ (Option.mem_def.mpr hlast)
        cases hdl : (DetEvent.sample t l0 :: rest).dropLast with
        | nil =>
          rw [hdl] at hsplit
          simp at hsplit
        | cons f0 frest =>
          rw [hdl] at hsplit
          have hf0 : f0 = DetEvent.sample t l0 := by
            have := hsplit
            rw [List.cons_append] at this
            injection this
          subst hf0
          rw [← hsplit]
          have hrest : runTrace (initDet t) (DetEvent.sample t l0 :: frest) =
              runTrace (⟨some l0, t, []⟩ : DetState) frest := by
            show runTrace (stepSample (initDet t) t l0) frest = _
            rw [stepSample_first]
          obtain ⟨k, e', he', hlen, herr⟩ := runTrace_B frest ⟨some l0, t, []⟩ l0 rfl
          rw [runTrace_append (DetEvent.sample t l0 :: frest) [DetEvent.drain T] (initDet t)]
          rw [hrest]
          have hdrain : runTrace (runTrace (⟨some l0, t, []⟩ : DetState) frest).1
              [DetEvent.drain T] =
              ((⟨some e', T, []⟩ : DetState),
                (runTrace (⟨some l0, t, []⟩ : DetState) frest).1.emoSpans ++
                  [(e', round2 (T -
                    (runTrace (⟨some l0, t, []⟩ : DetState) frest).1.spanStart))]) := by
            show (let sd := drainStep (runTrace (⟨some l0, t, []⟩ : DetState) frest).1 T
              let r := runTrace sd.1 []
              (r.1, sd.2 ++ r.2)) = _
            rw [show drainStep (runTrace (⟨some l0, t, []⟩ : DetState) frest).1 T =
              ((⟨some e', T, []⟩ : DetState),
                (runTrace (⟨some l0, t, []⟩ : DetState) frest).1.emoSpans ++
                  [(e', round2 (T -
                    (runTrace (⟨some l0, t, []⟩ : DetState) frest).1.spanStart))]) from by
              unfold drainStep
              rw [he']]
            simp [runTrace]
          rw [hdrain]
          dsimp only
          rw [sumDur_append, sumDur_append]
          have hsd : sumDur [(e', round2 (T -
              (runTrace (⟨some l0, t, []⟩ : DetState) frest).1.spanStart))] =
              round2 (T - (runTrace (⟨some l0, t, []⟩ : DetState) frest).1.spanStart) := by
            simp [sumDur]
          rw [hsd]
          dsimp only at hlen herr
          have h0 : sumDur ([] : List (String × ℚ)) = 0 := by simp [sumDur]
          rw [h0] at herr
          have hr2 := round2_err (T - (runTrace (⟨some l0, t, []⟩ : DetState) frest).1.spanStart)
          simp only [List.length_append, List.length_cons, List.length_nil] at hlen ⊢
          rw [abs_le] at herr hr2 ⊢
          have hklen : ((runTrace (⟨some l0, t, []⟩ : DetState) frest).2.length : ℚ) +
              ((runTrace (⟨some l0, t, []⟩ : DetState) frest).1.emoSpans.length : ℚ) = k := by
            rw [show ((0 : ℕ) + k) = k from by omega] at hlen
            push_cast [← hlen]
            ring
          constructor
          · push_cast
            linarith [herr.1, hr2.1, hp, hklen]
          · push_cast
            linarith [herr.2, hr2.2, hp, hklen]
  · intro s t e hs
    unfold drainStep
    rw [hs]
  · intro s t1 t2 e hs
    unfold drainStep
    rw [hs]
    dsimp only
    simp

theorem except_pure_eq_ok {ε α : Type} (a : α) : (pure a : Except ε α) = .ok a := rfl

theorem round2_eval_016 : round2 (2/125 : ℚ) = 1/50 := by
  unfold round2 roundHalfEven
  rw [show ⌊(100 : ℚ) * (2/125)⌋ = 1 from by norm_num]
  rw [if_neg (by norm_num), if_pos (by norm_num)]
  norm_num

theorem exC1_spans : (runTrace (initDet 0) exC1Events).2 =
    [("n", round2 (2/125 - 0)), ("n", round2 (4/125 - 2/125)), ("n", round2 (6/125 - 4/125))] := rfl

theorem exC1_total : sumDur (runTrace (initDet 0) exC1Events).2 = 3/50 := by
  rw [exC1_spans]
  rw [show (2/125 - 0 : ℚ) = 2/125 from by norm_num,
    show (4/125 - 2/125 : ℚ) = 2/125 from by norm_num,
    show (6/125 - 4/125 : ℚ) = 2/125 from by norm_num]
  rw [round2_eval_016]
  simp [sumDur]
  norm_num

theorem exC1_valid : validTrace (period 100) 0 (6/125) exC1Events := by
  refine ⟨by norm_num [period], rfl, ?_, ?_, ?_, rfl⟩
  · simp only [exC1Events, List.map, eventTime, chainLE, Bool.and_eq_true, decide_eq_true_eq]
    norm_num
  · simp only [exC1Events, sampleTimes, List.filterMap]
    norm_num [List.range_succ, period]
  · simp only [exC1Events, sampleTimes, List.filterMap]
    norm_num [period]

theorem C1_counterexample :
    validTrace (period 100) 0 (6/125) exC1Events ∧
    sumDur (runTrace (initDet 0) exC1Events).2 = 3/50 ∧
    ¬(|sumDur (runTrace (initDet 0) exC1Events).2 - (6/125 - 0)| ≤ period 100) := by
  refine ⟨exC1_valid, exC1_total, ?_⟩
  rw [exC1_total]
  rw [show (3/50 : ℚ) - (6/125 - 0) = 3/250 from by norm_num]
  rw [abs_of_pos (by norm_num)]
  norm_num [period]

theorem C1_witness :
    (|sumDur (runTrace (initDet 0) [DetEvent.sample 0 "a", DetEvent.drain (1/100)]).2 -
      (1/100 - 0)| ≤ 1/100 +
        ((runTrace (initDet 0) [DetEvent.sample 0 "a", DetEvent.drain (1/100)]).2.length : ℚ)
          / 200) ∧
    drainStep ⟨some "a", 0, []⟩ 1 = (⟨some "a", 1, []⟩, [("a", round2 (1 - 0))]) ∧
    (drainStep (drainStep ⟨some "a", 0, []⟩ 1).1 2).2 = [("a", round2 (2 - 1))] := by
  refine ⟨C1_drain_accounting.1 (1/100) 0 (1/100) _ ?_,
    C1_drain_accounting.2.1 ⟨some "a", 0, []⟩ 1 "a" rfl,
    C1_drain_accounting.2.2 ⟨some "a", 0, []⟩ 1 2 "a" rfl⟩
  refine ⟨by norm_num, rfl, ?_, ?_, ?_, rfl⟩
  · simp only [List.map, eventTime, chainLE, Bool.and_eq_true, decide_eq_true_eq]
    norm_num
  · simp only [sampleTimes, List.filterMap]
    norm_num [List.range_succ]
  · simp only [sampleTimes, List.filterMap]
    norm_num

/-- C9 (amended): a classifier exception is not converted into an
"unknown" label — it propagates out of `_detect_emotion` and hence out
of the `_run` loop body, so no sample is recorded and the background
sampler thread terminates; a successful classification yields either the
first detection's label or the `"no-face"` sentinel (also used for
non-RMN configurations), never an "unknown" sentinel of the code's
own making. -/
theorem C9_classifier_fault :
    (∀ (e : PyErr), detectEmotion "RMN" true (.error e) = .error e) ∧
    (∀ (s : DetState) (t : ℚ) (e : PyErr), runTick s t "RMN" true (.error e) = .error e) ∧
    (∀ (m : String) (mp : Bool) (cls : Except PyErr (List String)) (lbl : String),
      detectEmotion m mp cls = .ok lbl →
      lbl = "no-face" ∨ ∃ ds, cls = .ok ds ∧ ds.head? = some lbl) := by
  refine ⟨fun e => rfl, fun s t e => rfl, ?_⟩
  intro m mp cls lbl h
  unfold detectEmotion at h
  by_cases hc : m = "RMN" ∧ mp = true
  · rw [if_pos hc] at h
    cases cls with
    | error e => simp only [except_error_bind] at h; cases h
    | ok ds =>
      simp only [except_ok_bind, except_pure_eq_ok] at h
      injection h with h
      cases ds with
      | nil => left; rw [← h]
      | cons d dr =>
        right
        refine ⟨d :: dr, rfl, ?_⟩
        rw [← h]
        rfl
  · rw [if_neg hc, except_pure_eq_ok] at h
    injection h with h
    left
    rw [← h]

theorem C9_witness :
    detectEmotion "RMN" true (.error .valueError) = .error .valueError ∧
    ("no-face" = "no-face" ∨ ∃ ds, (Except.ok ["happy"] : Except PyErr (List String)) = .ok ds ∧
      ds.head? = some "no-face") :=
  ⟨C9_classifier_fault.1 .valueError,
   C9_classifier_fault.2.2 "XYZ" false (.ok ["happy"]) "no-face" rfl⟩

theorem C9_counterexample :
    detectEmotion "RMN" true (.error (.other "ClassifierError")) =
      .error (.other "ClassifierError") ∧
    detectEmotion "RMN" true (.error (.other "ClassifierError")) ≠ .ok "unknown" ∧
    runTick (initDet 0) 1 "RMN" true (.error (.other "ClassifierError")) =
      .error (.other "ClassifierError") :=
  ⟨rfl, by decide, rfl⟩
